import Mathlib

/-! targetd-provisioner: provisioning and deprovisioning orchestration.

A shallow embedding of the orchestration logic of the two provisioners of the
repository (`iscsi/iscsi-provisioner.go`, `nfs/nfs-provisioner.go`) and of the
error codes of `targetd/error.go`.

Conventions of the embedding.

* Go `int32`/`int`/`int64` values are Lean `Int`; the conversion `int32(x)` is
  the explicit wrap-around `int32`.
* A Go `map[string]string` is an association list read with `lookup`, which
  gives `""` for an absent key as a Go map read does.
* A Go `error` is a `GoError`; `nil` is `none`.
* The storage daemon is a `Remote`: a function giving the reply to a call from
  the calls issued before it in the same invocation.  Every function that
  talks to the daemon threads the list of calls issued so far (the trace) and
  returns it extended by the calls it made.
* `jsonrpc2.NewHTTPClient` never returns `nil`, so `getConnection` always
  succeeds and each wrapper issues exactly its `client.Call`.
* Logging (`zap`) has no effect on results or calls and is left out.
-/

/-! ## Go library functions used by the provisioners -/

/-- Conversion to a 32-bit signed integer, `int32(x)` in Go. -/
def int32 (x : Int) : Int := (x + 2147483648) % 4294967296 - 2147483648

/-- A Go `error` value as the provisioners produce, inspect and return it. -/
inductive GoError where
  /-- Error returned by `client.Call`; `text` is what `Error()` gives. -/
  | rpc (text : String)
  /-- Error made by `errors.New` or `fmt.Errorf`. -/
  | new (text : String)
  /-- A `targetd.ErrorInfo` returned as an error. -/
  | errorInfo (code : Int) (message : String)
  /-- Error of the properties library (load or decode of the CHAP file). -/
  | properties (text : String)
  deriving DecidableEq, Repr

/-- The `Error()` method. -/
def GoError.Error : GoError → String
  | .rpc text => text
  | .new text => text
  | .errorInfo _ message => message
  | .properties text => text

namespace strings

/-- Pieces of `s` between commas, the current piece being `cur` (reversed). -/
def splitAux : List Char → List Char → List String
  | [], cur => [String.mk cur.reverse]
  | c :: cs, cur =>
    if c = ',' then String.mk cur.reverse :: splitAux cs []
    else splitAux cs (c :: cur)

/-- The call `strings.Split(s, ",")`: the substrings of `s` between commas. -/
def Split (s : String) : List String := splitAux s.data []

end strings

namespace strconv

/-- The function `strconv.ParseBool`: `none` stands for a syntax error. -/
def ParseBool (s : String) : Option Bool :=
  if s = "1" ∨ s = "t" ∨ s = "T" ∨ s = "TRUE" ∨ s = "true" ∨ s = "True" then some true
  else if s = "0" ∨ s = "f" ∨ s = "F" ∨ s = "FALSE" ∨ s = "false" ∨ s = "False" then some false
  else none

end strconv

/-- Read of a Go `map[string]string`: the zero value `""` for an absent key. -/
def lookup (m : List (String × String)) (key : String) : String :=
  match m.find? (fun kv => kv.1 = key) with
  | some kv => kv.2
  | none => ""

/-! ## `targetd/error.go` -/

namespace targetd

abbrev ErrorCode := Int

def Invalid : ErrorCode := -1
def NameConflict : ErrorCode := -50
def NoSupport : ErrorCode := -153
def UnexpectedExitCode : ErrorCode := -303
def InvalidArgument : ErrorCode := -32602
def ExistsInitiator : ErrorCode := -52
def NotFoundVolume : ErrorCode := -103
def NotFoundVolumeGroup : ErrorCode := -152
def NotFoundAccessGroup : ErrorCode := -200
def VolumeMasked : ErrorCode := -303
def NoFreeHostLunId : ErrorCode := -1000
def ExistsCloneName : ErrorCode := -51
def ExistsFsName : ErrorCode := -53
def NotFoundFs : ErrorCode := -104
def InvalidPool : ErrorCode := -110
def NotFoundSs : ErrorCode := -112
def NotFoundVolumeExport : ErrorCode := -151
def NotFoundNfsExport : ErrorCode := -400
def NfsNoSupport : ErrorCode := -401

structure ErrorInfo where
  Code : ErrorCode
  Message : String
  deriving DecidableEq, Repr

/-- An `ErrorInfo` used as a Go `error`. -/
def ErrorInfo.toError (i : ErrorInfo) : GoError := .errorInfo i.Code i.Message

end targetd

/-! ## Kubernetes objects, as far as the provisioners read or write them -/

abbrev PersistentVolumeAccessMode := String

def ReadWriteOnce : PersistentVolumeAccessMode := "ReadWriteOnce"
def ReadOnlyMany : PersistentVolumeAccessMode := "ReadOnlyMany"
def ReadWriteMany : PersistentVolumeAccessMode := "ReadWriteMany"

/-- The library function `util.AccessModesContainedInAll`: every requested
mode is one of the indexed modes. -/
def AccessModesContainedInAll (indexedModes requestedModes : List PersistentVolumeAccessMode) :
    Bool :=
  requestedModes.all (fun mode => indexedModes.contains mode)

inductive ProvisioningState where
  | ProvisioningNoChange
  | ProvisioningFinished
  deriving DecidableEq, Repr

/-- The fields of `controller.ProvisionOptions` the provisioners read. -/
structure ProvisionOptions where
  PVName : String
  /-- The map `StorageClass.Parameters`. -/
  Parameters : List (String × String)
  /-- The value `*StorageClass.ReclaimPolicy`. -/
  ReclaimPolicy : String
  /-- The list `PVC.Spec.AccessModes`. -/
  AccessModes : List PersistentVolumeAccessMode
  /-- The value in bytes of `PVC.Spec.Resources.Requests[storage]`. -/
  Storage : Int
  /-- The field `PVC.Spec.VolumeMode`. -/
  VolumeMode : Option String
  deriving DecidableEq, Repr

/-! ## `iscsi/iscsi-provisioner.go` -/

namespace iscsi

/-- The struct `export` (the name is a keyword of Lean). -/
structure Export where
  InitiatorWwn : String
  Lun : Int
  VolName : String
  VolSize : Int
  VolUUID : String
  Pool : String
  deriving DecidableEq, Repr

abbrev exportList := List Export

/-- The method `Less` of `exportList`, as the order `sort.Sort` sorts by. -/
def exportList.le (a b : Export) : Prop := a.Lun ≤ b.Lun

instance : DecidableRel exportList.le := fun a b => Int.decLe a.Lun b.Lun

/-- The call `sort.Sort(exportList)`: the list in ascending order of LUN. -/
def exportList.sort (l : exportList) : exportList := l.insertionSort exportList.le

/-- The assignment `m[k] = v` on a `map[int32]export`. -/
def mapSet : List (Int × Export) → Int → Export → List (Int × Export)
  | [], k, v => [(k, v)]
  | (k', v') :: m, k, v => if k' = k then (k, v) :: m else (k', v') :: mapSet m k v

/-- The loop `for i, clun := range sluns` of `getFirstAvailableLun`, entered
at index `i` with `lun` holding the value set before the loop. -/
def scanLuns (lun : Int) : Nat → List Int → Int
  | _, [] => lun
  | i, clun :: rest => if (i : Int) < clun then int32 i else scanLuns lun (i + 1) rest

/-- The part of `getFirstAvailableLun` after the slice `luns` is filled. -/
def lunFromList (luns : List Int) : Int × Option GoError :=
  if luns.length ≥ 255 then
    (-1, some (.new "255 luns allocated no more luns available"))
  else
    let sluns := luns.insertionSort (· ≤ ·)
    (scanLuns (int32 sluns.length) 0 sluns, none)

/-- The method `getFirstAvailableLun`.  The map is ranged over in the order
its keys were first set; Go leaves that order open, and `lunFromList` sorts
the slice it fills before reading it. -/
def getFirstAvailableLun (l : exportList) : Int × Option GoError :=
  let sorted := exportList.sort l
  let uniqueExport := sorted.foldl (fun m e => mapSet m e.Lun e) []
  let luns := uniqueExport.map (fun kv => kv.2.Lun)
  lunFromList luns

structure chapSessionCredentials where
  InUser : String
  InPassword : String
  OutUser : String
  OutPassword : String
  deriving DecidableEq, Repr

structure volCreateArgs where
  Pool : String
  Name : String
  Size : Int
  deriving DecidableEq, Repr

structure initiatorSetAuthArgs where
  InitiatorWwn : String
  InUser : String
  InPassword : String
  OutUser : String
  OutPassword : String
  deriving DecidableEq, Repr

structure volDestroyArgs where
  Pool : String
  Name : String
  deriving DecidableEq, Repr

structure exportCreateArgs where
  Pool : String
  Vol : String
  InitiatorWwn : String
  Lun : Int
  deriving DecidableEq, Repr

structure exportDestroyArgs where
  Pool : String
  Vol : String
  InitiatorWwn : String
  deriving DecidableEq, Repr

/-- A remote call of the block backend: the method name given to
`client.Call` together with its arguments. -/
inductive Call where
  | vol_create (args : volCreateArgs)
  | vol_destroy (args : volDestroyArgs)
  | export_create (args : exportCreateArgs)
  | export_destroy (args : exportDestroyArgs)
  | export_list
  | initiator_set_auth (args : initiatorSetAuthArgs)
  deriving DecidableEq, Repr

/-- The storage daemon as the block backend sees it: the reply to a call,
given the calls issued before it.  A reply is the text of the error
`client.Call` returns, or the result decoded into an `exportList` (read by
`export_list` only). -/
abbrev Remote := List Call → Call → Except String exportList

/-- The call `client.Call(method, args, reply)` after the calls of `t`. -/
def call (r : Remote) (c : Call) (t : List Call) : Except String exportList × List Call :=
  (r t c, t ++ [c])

/-- The `error` result of `client.Call`. -/
def errOf : Except String exportList → Option GoError
  | .error text => some (.rpc text)
  | .ok _ => none

/-- What the block provisioner reads from its process: the configuration
(`viper`) and the CHAP credential file at `session-chap-credential-file-path`. -/
structure Env where
  /-- The setting `default-fs`. -/
  defaultFs : String
  /-- The setting `provisioner-name`. -/
  provisionerName : String
  /-- The outcome of `properties.LoadFile` on the credential file. -/
  LoadFile : Except GoError (List (String × String))
  /-- The outcome of `prop.Decode(chapCredentials)` on loaded properties. -/
  Decode : List (String × String) → Except GoError chapSessionCredentials

structure ISCSIPersistentVolumeSource where
  TargetPortal : String
  Portals : List String
  IQN : String
  ISCSIInterface : String
  Lun : Int
  ReadOnly : Bool
  FSType : String
  DiscoveryCHAPAuth : Bool
  SessionCHAPAuth : Bool
  /-- The name of the referenced secret, when there is one. -/
  SecretRef : Option String
  deriving DecidableEq, Repr

/-- A volume record of the block backend: a `v1.PersistentVolume` whose
source is `ISCSI`. -/
structure PersistentVolume where
  Name : String
  Annotations : List (String × String)
  PersistentVolumeReclaimPolicy : String
  AccessModes : List PersistentVolumeAccessMode
  Capacity : Int
  VolumeMode : Option String
  ISCSI : ISCSIPersistentVolumeSource
  deriving DecidableEq, Repr

/-- The three results of `Provision`. -/
structure ProvisionResult where
  pv : Option PersistentVolume
  state : ProvisioningState
  err : Option GoError
  deriving DecidableEq, Repr

def getAccessModes : List PersistentVolumeAccessMode := [ReadWriteOnce, ReadOnlyMany]

/-- The verb `%v` of `fmt` on a slice of access modes. -/
def fmtModes (modes : List PersistentVolumeAccessMode) : String :=
  "[" ++ " ".intercalate modes ++ "]"

def getReadOnly (readonly : String) : Bool :=
  match strconv.ParseBool readonly with
  | none => false
  | some isReadOnly => isReadOnly

def getFsType (env : Env) (fsType : String) : String :=
  if fsType = "" then env.defaultFs else fsType

def getSecretRef (discovery session : Bool) (ref : String) : Option String :=
  if discovery || session then some ref else none

def getBool (value : String) : Bool :=
  match strconv.ParseBool value with
  | none => false
  | some res => res

def getSize (options : ProvisionOptions) : Int := options.Storage

def getVolumeName (options : ProvisionOptions) : String := options.PVName

def getVolumeGroup (options : ProvisionOptions) : String :=
  if lookup options.Parameters "volumeGroup" = "" then "vg-targetd"
  else lookup options.Parameters "volumeGroup"

def getInitiators (options : ProvisionOptions) : List String :=
  strings.Split (lookup options.Parameters "initiators")

def volDestroy (r : Remote) (vol pool : String) (t : List Call) : Option GoError × List Call :=
  let (reply, t) := call r (.vol_destroy { Pool := pool, Name := vol }) t
  (errOf reply, t)

def exportDestroy (r : Remote) (vol pool initiator : String) (t : List Call) :
    Option GoError × List Call :=
  let (reply, t) := call r (.export_destroy { Pool := pool, Vol := vol, InitiatorWwn := initiator }) t
  (errOf reply, t)

def volCreate (r : Remote) (name : String) (size : Int) (pool : String) (t : List Call) :
    Option GoError × List Call :=
  let (reply, t) := call r (.vol_create { Pool := pool, Name := name, Size := size }) t
  (errOf reply, t)

def exportCreate (r : Remote) (vol : String) (lun : Int) (pool initiator : String)
    (t : List Call) : Option GoError × List Call :=
  let (reply, t) :=
    call r (.export_create { Pool := pool, Vol := vol, InitiatorWwn := initiator, Lun := lun }) t
  (errOf reply, t)

/-- The method `exportList`: the decoded result and the error of the call. -/
def exportListCall (r : Remote) (t : List Call) : (exportList × Option GoError) × List Call :=
  match call r .export_list t with
  | (.error text, t) => (([], some (.rpc text)), t)
  | (.ok result1, t) => ((result1, none), t)

def setInitiatorAuth (r : Remote) (initiator inUser inPassword outUser outPassword : String)
    (t : List Call) : Option GoError × List Call :=
  let (reply, t) := call r (.initiator_set_auth
    { InitiatorWwn := initiator, InUser := inUser, InPassword := inPassword,
      OutUser := outUser, OutPassword := outPassword }) t
  (errOf reply, t)

/-- The loop `for _, initiator := range initiators` of `createVolume`: the
error it returns with, or `none` when it runs to its end. -/
def createExports (r : Remote) (chapAuthSession : Bool) (chapCredentials : chapSessionCredentials)
    (vol : String) (lun : Int) (pool : String) : List String → List Call →
    Option GoError × List Call
  | [], t => (none, t)
  | initiator :: rest, t =>
    match exportCreate r vol lun pool initiator t with
    | (some err, t) => (some err, t)
    | (none, t) =>
      if chapAuthSession then
        match setInitiatorAuth r initiator chapCredentials.InUser chapCredentials.InPassword
            chapCredentials.OutUser chapCredentials.OutPassword t with
        | (some err, t) => (some err, t)
        | (none, t) => createExports r chapAuthSession chapCredentials vol lun pool rest t
      else createExports r chapAuthSession chapCredentials vol lun pool rest t

/-- The four results `(vol, lun, pool, err)` of `createVolume`. -/
structure createVolumeResult where
  vol : String
  lun : Int
  pool : String
  err : Option GoError
  deriving DecidableEq, Repr

/-- The credentials `createVolume` reads before its first remote call: the
zero value unless session CHAP is requested. -/
def readChapCredentials (env : Env) (options : ProvisionOptions) :
    Except GoError chapSessionCredentials :=
  if getBool (lookup options.Parameters "chapAuthSession") then
    match env.LoadFile with
    | .error err2 => .error err2
    | .ok prop =>
      match env.Decode prop with
      | .error err2 => .error err2
      | .ok chapCredentials => .ok chapCredentials
  else .ok { InUser := "", InPassword := "", OutUser := "", OutPassword := "" }

def createVolume (env : Env) (r : Remote) (options : ProvisionOptions) (t : List Call) :
    createVolumeResult × List Call :=
  let size := getSize options
  let vol := getVolumeName options
  let pool := getVolumeGroup options
  let initiators := getInitiators options
  match readChapCredentials env options with
  | .error err2 => ({ vol := "", lun := 0, pool := "", err := some err2 }, t)
  | .ok chapCredentials =>
    match exportListCall r t with
    | ((_, some err), t) => ({ vol := "", lun := 0, pool := "", err := some err }, t)
    | ((exportList1, none), t) =>
      match getFirstAvailableLun exportList1 with
      | (_, some err) => ({ vol := "", lun := 0, pool := "", err := some err }, t)
      | (lun, none) =>
        match volCreate r vol size pool t with
        | (some err, t) => ({ vol := "", lun := 0, pool := "", err := some err }, t)
        | (none, t) =>
          match createExports r (getBool (lookup options.Parameters "chapAuthSession"))
              chapCredentials vol lun pool initiators t with
          | (some err, t) => ({ vol := "", lun := 0, pool := "", err := some err }, t)
          | (none, t) => ({ vol := vol, lun := lun, pool := pool, err := none }, t)

/-- The method `Provision` of the block provisioner, with the calls it issued. -/
def Provision (env : Env) (r : Remote) (options : ProvisionOptions) :
    ProvisionResult × List Call :=
  if !AccessModesContainedInAll getAccessModes options.AccessModes then
    ({ pv := none, state := .ProvisioningNoChange,
       err := some (.new ("invalid AccessModes " ++ fmtModes options.AccessModes ++
         ": only AccessModes " ++ fmtModes getAccessModes ++ " are supported")) }, [])
  else
    match createVolume env r options [] with
    | ({ vol := _, lun := _, pool := _, err := some err }, t) =>
      ({ pv := none, state := .ProvisioningNoChange, err := some err }, t)
    | ({ vol := vol, lun := lun, pool := pool, err := none }, t) =>
      let annotations := [("volume_name", vol), ("pool", pool),
        ("initiators", lookup options.Parameters "initiators")]
      let portals :=
        if (lookup options.Parameters "portals").length > 0 then
          strings.Split (lookup options.Parameters "portals")
        else []
      ({ pv := some
          { Name := options.PVName
            Annotations := annotations
            PersistentVolumeReclaimPolicy := options.ReclaimPolicy
            AccessModes := options.AccessModes
            Capacity := options.Storage
            VolumeMode := options.VolumeMode
            ISCSI :=
              { TargetPortal := lookup options.Parameters "targetPortal"
                Portals := portals
                IQN := lookup options.Parameters "iqn"
                ISCSIInterface := lookup options.Parameters "iscsiInterface"
                Lun := lun
                ReadOnly := getReadOnly (lookup options.Parameters "readonly")
                FSType := getFsType env (lookup options.Parameters "fsType")
                DiscoveryCHAPAuth := getBool (lookup options.Parameters "chapAuthDiscovery")
                SessionCHAPAuth := getBool (lookup options.Parameters "chapAuthSession")
                SecretRef := getSecretRef (getBool (lookup options.Parameters "chapAuthDiscovery"))
                  (getBool (lookup options.Parameters "chapAuthSession"))
                  (env.provisionerName ++ "-chap-secret") } },
         state := .ProvisioningFinished, err := none }, t)

/-- The loop `for _, initiator := range strings.Split(...)` of `Delete`: the
error it returns with, or `none` when it runs to its end. -/
def destroyExports (r : Remote) (volume : PersistentVolume) : List String → List Call →
    Option GoError × List Call
  | [], t => (none, t)
  | initiator :: rest, t =>
    match exportDestroy r (lookup volume.Annotations "volume_name")
        (lookup volume.Annotations "pool") initiator t with
    | (some err, t) => (some err, t)
    | (none, t) => destroyExports r volume rest t

/-- The method `Delete` of the block provisioner, with the calls it issued. -/
def Delete (r : Remote) (volume : PersistentVolume) : Option GoError × List Call :=
  match destroyExports r volume (strings.Split (lookup volume.Annotations "initiators")) [] with
  | (some err, t) => (some err, t)
  | (none, t) =>
    match volDestroy r (lookup volume.Annotations "volume_name")
        (lookup volume.Annotations "pool") t with
    | (some err, t) => (some err, t)
    | (none, t) => (none, t)

end iscsi

/-! ## `nfs/nfs-provisioner.go` -/

namespace nfs

structure volCreateArgs where
  Pool : String
  Name : String
  Size : Int
  deriving DecidableEq, Repr

structure volDestroyArgs where
  Uuid : String
  deriving DecidableEq, Repr

structure exportCreateArgs where
  Host : String
  Path : String
  Options : List String
  deriving DecidableEq, Repr

structure exportDestroyArgs where
  Host : String
  Path : String
  deriving DecidableEq, Repr

structure volume where
  Name : String
  Uuid : String
  TotalSpace : Int
  FreeSpace : Int
  Pool : String
  FullPath : String
  deriving DecidableEq, Repr

abbrev volumeList := List volume

/-- A remote call of the file backend: the method name given to
`client.Call` together with its arguments. -/
inductive Call where
  | fs_create (args : volCreateArgs)
  | fs_destroy (args : volDestroyArgs)
  | fs_list
  | nfs_export_add (args : exportCreateArgs)
  | nfs_export_remove (args : exportDestroyArgs)
  deriving DecidableEq, Repr

/-- The storage daemon as the file backend sees it: the reply to a call,
given the calls issued before it.  A reply is the text of the error
`client.Call` returns, or the result decoded into a `volumeList` (read by
`fs_list` only). -/
abbrev Remote := List Call → Call → Except String volumeList

/-- The call `client.Call(method, args, reply)` after the calls of `t`. -/
def call (r : Remote) (c : Call) (t : List Call) : Except String volumeList × List Call :=
  (r t c, t ++ [c])

/-- The `error` result of `client.Call`. -/
def errOf : Except String volumeList → Option GoError
  | .error text => some (.rpc text)
  | .ok _ => none

/-- The library function `json.Unmarshal` into a `targetd.ErrorInfo`, as a
function of the text decoded: the value decoded, or `none` when it returns an
error. -/
abbrev Unmarshal := String → Option targetd.ErrorInfo

structure NFSVolumeSource where
  Server : String
  Path : String
  ReadOnly : Bool
  deriving DecidableEq, Repr

/-- A volume record of the file backend: a `v1.PersistentVolume` whose
source is `NFS`. -/
structure PersistentVolume where
  Name : String
  Annotations : List (String × String)
  PersistentVolumeReclaimPolicy : String
  AccessModes : List PersistentVolumeAccessMode
  Capacity : Int
  VolumeMode : Option String
  NFS : NFSVolumeSource
  deriving DecidableEq, Repr

/-- The three results of `Provision`. -/
structure ProvisionResult where
  pv : Option PersistentVolume
  state : ProvisioningState
  err : Option GoError
  deriving DecidableEq, Repr

def getAccessModes : List PersistentVolumeAccessMode := [ReadWriteMany, ReadOnlyMany, ReadWriteOnce]

/-- The verb `%v` of `fmt` on a slice of access modes. -/
def fmtModes (modes : List PersistentVolumeAccessMode) : String :=
  "[" ++ " ".intercalate modes ++ "]"

def getReadOnly (readonly : String) : Bool :=
  match strconv.ParseBool readonly with
  | none => false
  | some isReadOnly => isReadOnly

def getVolumeName (options : ProvisionOptions) : String := options.PVName

def getVolumeGroup (options : ProvisionOptions) : String :=
  if lookup options.Parameters "volumeGroup" = "" then "vg-targetd"
  else lookup options.Parameters "volumeGroup"

def getHosts (options : ProvisionOptions) : List String :=
  strings.Split (lookup options.Parameters "hosts")

def getNfsOptions (options : ProvisionOptions) : List String :=
  strings.Split (lookup options.Parameters "options")

def volCreate (r : Remote) (name pool : String) (t : List Call) : Option GoError × List Call :=
  let (reply, t) := call r (.fs_create { Pool := pool, Name := name, Size := 0 }) t
  (errOf reply, t)

/-- The method `volList`: the decoded result and the error of the call. -/
def volList (r : Remote) (t : List Call) : (volumeList × Option GoError) × List Call :=
  match call r .fs_list t with
  | (.error text, t) => (([], some (.rpc text)), t)
  | (.ok result1, t) => ((result1, none), t)

/-- The three results `(path, uuid, err)` of `volFind`.  The error of
`volList` is assigned to the result `err` and is what the bare `return`
inside the loop gives back. -/
def volFind (r : Remote) (name pool : String) (t : List Call) :
    (String × String × Option GoError) × List Call :=
  match volList r t with
  | ((volumeList, err), t) =>
    match volumeList.find? (fun volume => volume.Pool = pool ∧ volume.Name = name) with
    | some volume => ((volume.FullPath, volume.Uuid, err), t)
    | none => (("", "", some (.new "failed to find the created volume")), t)

def volDestroy (r : Remote) (uuid : String) (t : List Call) : Option GoError × List Call :=
  let (reply, t) := call r (.fs_destroy { Uuid := uuid }) t
  (errOf reply, t)

def exportCreate (r : Remote) (fullPath host : String) (nfsOptions : List String)
    (t : List Call) : Option GoError × List Call :=
  let (reply, t) :=
    call r (.nfs_export_add { Host := host, Path := fullPath, Options := nfsOptions }) t
  (errOf reply, t)

def exportDestroy (r : Remote) (fullPath host : String) (t : List Call) :
    Option GoError × List Call :=
  let (reply, t) := call r (.nfs_export_remove { Host := host, Path := fullPath }) t
  (errOf reply, t)

/-- The loop `for _, host := range hosts` of `createVolume`, entered with the
result variable `err` holding `err`: each turn assigns it the error of
`exportCreate`, and the value it holds at the end is returned. -/
def createExports (r : Remote) (path : String) (nfsOpts : List String) :
    List String → Option GoError → List Call → Option GoError × List Call
  | [], err, t => (err, t)
  | host :: rest, _, t =>
    match exportCreate r path host nfsOpts t with
    | (err, t) => createExports r path nfsOpts rest err t

/-- The five results `(vol, pool, path, uuid, err)` of `createVolume`. -/
structure createVolumeResult where
  vol : String
  pool : String
  path : String
  uuid : String
  err : Option GoError
  deriving DecidableEq, Repr

def createVolume (r : Remote) (options : ProvisionOptions) (t : List Call) :
    createVolumeResult × List Call :=
  let vol := getVolumeName options
  let pool := getVolumeGroup options
  let hosts := getHosts options
  let nfsOpts := getNfsOptions options
  match volCreate r vol pool t with
  | (some err, t) => ({ vol := "", pool := "", path := "", uuid := "", err := some err }, t)
  | (none, t) =>
    match volFind r vol pool t with
    | ((_, _, some err), t) =>
      ({ vol := "", pool := "", path := "", uuid := "", err := some err }, t)
    | ((path, uuid, none), t) =>
      match createExports r path nfsOpts hosts none t with
      | (err, t) => ({ vol := vol, pool := pool, path := path, uuid := uuid, err := err }, t)

/-- The method `Provision` of the file provisioner, with the calls it issued. -/
def Provision (r : Remote) (options : ProvisionOptions) : ProvisionResult × List Call :=
  if !AccessModesContainedInAll getAccessModes options.AccessModes then
    ({ pv := none, state := .ProvisioningNoChange,
       err := some (.new ("invalid AccessModes " ++ fmtModes options.AccessModes ++
         ": only AccessModes " ++ fmtModes getAccessModes ++ " are supported")) }, [])
  else
    match createVolume r options [] with
    | ({ vol := _, pool := _, path := _, uuid := _, err := some err }, t) =>
      ({ pv := none, state := .ProvisioningNoChange, err := some err }, t)
    | ({ vol := _, pool := _, path := path, uuid := uuid, err := none }, t) =>
      let annotations := [("uuid", uuid), ("hosts", lookup options.Parameters "hosts")]
      let host := lookup options.Parameters "host"
      ({ pv := some
          { Name := options.PVName
            Annotations := annotations
            PersistentVolumeReclaimPolicy := options.ReclaimPolicy
            AccessModes := options.AccessModes
            Capacity := options.Storage
            VolumeMode := options.VolumeMode
            NFS :=
              { Server := host
                Path := path
                ReadOnly := getReadOnly (lookup options.Parameters "readonly") } },
         state := .ProvisioningFinished, err := none }, t)

/-- The loop `for _, host := range strings.Split(...)` of `Delete`: the error
it returns with, or `none` when it runs to its end. -/
def destroyExports (unmarshal : Unmarshal) (r : Remote) (volume : PersistentVolume) :
    List String → List Call → Option GoError × List Call
  | [], t => (none, t)
  | host :: rest, t =>
    match exportDestroy r host volume.NFS.Path t with
    | (some err, t) =>
      match unmarshal err.Error with
      | none => (some err, t)
      | some errorInfo =>
        if errorInfo.Code ≠ targetd.NotFoundNfsExport then (some errorInfo.toError, t)
        else destroyExports unmarshal r volume rest t
    | (none, t) => destroyExports unmarshal r volume rest t

/-- The method `Delete` of the file provisioner, with the calls it issued.
After `volDestroy` the error is decoded and its code compared with
`NotFoundVolume` only to choose what is logged. -/
def Delete (unmarshal : Unmarshal) (r : Remote) (volume : PersistentVolume) :
    Option GoError × List Call :=
  match destroyExports unmarshal r volume (strings.Split (lookup volume.Annotations "hosts")) [] with
  | (some err, t) => (some err, t)
  | (none, t) =>
    match volDestroy r (lookup volume.Annotations "uuid") t with
    | (some err, t) =>
      match unmarshal err.Error with
      | none => (none, t)
      | some errorInfo =>
        if errorInfo.Code ≠ targetd.NotFoundVolume then (none, t) else (none, t)
    | (none, t) => (none, t)

end nfs

/-! ## What the claims are stated with -/

namespace iscsi

/-- The LUN values an export list holds. -/
def lunsOf (l : exportList) : List Int := l.map (fun e => e.Lun)

/-- The number of distinct LUN values in an export list. -/
def distinctLuns (l : exportList) : Nat := (lunsOf l).dedup.length

/-- The minimum free slot of an export list: `lun` is non-negative, is the
LUN of no export of the list, and no smaller non-negative integer is free. -/
def IsFirstFree (l : exportList) (lun : Int) : Prop :=
  0 ≤ lun ∧ lun ∉ lunsOf l ∧ ∀ k : Int, 0 ≤ k → k ∉ lunsOf l → lun ≤ k

/-- An export that holds the LUN `lun` and nothing else. -/
def exportAt (lun : Int) : Export :=
  { InitiatorWwn := "", Lun := lun, VolName := "", VolSize := 0, VolUUID := "", Pool := "" }

/-- The calls `createVolume` issues for one initiator when none fails: its
`export_create`, then its `initiator_set_auth` when session CHAP is requested. -/
def exportCalls (chapAuthSession : Bool) (chapCredentials : chapSessionCredentials)
    (vol : String) (lun : Int) (pool initiator : String) : List Call :=
  .export_create { Pool := pool, Vol := vol, InitiatorWwn := initiator, Lun := lun } ::
    (if chapAuthSession then
      [.initiator_set_auth
        { InitiatorWwn := initiator, InUser := chapCredentials.InUser,
          InPassword := chapCredentials.InPassword, OutUser := chapCredentials.OutUser,
          OutPassword := chapCredentials.OutPassword }]
    else [])

/-- The success-case sequence of block `Provision`: the calls it issues, in
order, when every step succeeds with credentials `chapCredentials` and
allocated LUN `lun`. -/
def provisionCalls (options : ProvisionOptions) (chapCredentials : chapSessionCredentials)
    (lun : Int) : List Call :=
  .export_list ::
    .vol_create
      { Pool := getVolumeGroup options, Name := getVolumeName options,
        Size := getSize options } ::
    (getInitiators options).flatMap
      (exportCalls (getBool (lookup options.Parameters "chapAuthSession")) chapCredentials
        (getVolumeName options) lun (getVolumeGroup options))

/-- The LUN `getFirstAvailableLun` gives on the list the daemon returns to the
`export_list` call that opens `Provision` (`0` when that call fails). -/
def allocatedLun (r : Remote) : Int :=
  match r [] .export_list with
  | .ok exportList1 => (getFirstAvailableLun exportList1).1
  | .error _ => 0

/-- Issue the calls `cs` in order after the calls `t`, stopping at the first
one that fails: its error (or `none`) and the calls issued. -/
def runCalls (r : Remote) : List Call → List Call → Option GoError × List Call
  | [], t => (none, t)
  | c :: cs, t =>
    match r t c with
    | .error text => (some (.rpc text), t ++ [c])
    | .ok _ => runCalls r cs (t ++ [c])

/-- Every call of `cs`, issued in order after the calls `t`, succeeds. -/
def AllOk (r : Remote) (t cs : List Call) : Prop :=
  ∀ p c q, cs = p ++ c :: q → ∃ result, r (t ++ p) c = .ok result

/-- Sample configuration and credential file of the block provisioner. -/
def sampleEnv : Env :=
  { defaultFs := "ext4", provisionerName := "iscsi-targetd",
    LoadFile := .ok [("node.session.auth.username", "in"),
      ("node.session.auth.password", "inpw"), ("node.session.auth.username_in", "out"),
      ("node.session.auth.password_in", "outpw")],
    Decode := fun prop => .ok
      { InUser := lookup prop "node.session.auth.username",
        InPassword := lookup prop "node.session.auth.password",
        OutUser := lookup prop "node.session.auth.username_in",
        OutPassword := lookup prop "node.session.auth.password_in" } }

/-- A daemon that returns `exports` to `export_list` and answers the call
number `n` of an invocation (from 0) with the error text `failing n`, when
there is one, every other call succeeding. -/
def sampleRemote (exports : exportList) (failing : Nat → Option String) : Remote := fun t c =>
  match failing t.length with
  | some text => .error text
  | none =>
    match c with
    | .export_list => .ok exports
    | _ => .ok []

/-- A request for the block volume `pvc-1` exported to `initiators`, with
`chapAuthSession` set to `chap`. -/
def sampleOptions (initiators chap : String) : ProvisionOptions :=
  { PVName := "pvc-1",
    Parameters := [("initiators", initiators), ("chapAuthSession", chap),
      ("targetPortal", "10.0.0.1:3260"), ("iqn", "iqn.2003-01.org.example:targetd")],
    ReclaimPolicy := "Delete", AccessModes := [ReadWriteOnce], Storage := 1024,
    VolumeMode := none }

/-- The `export_destroy` call block `Delete` issues for `initiator`. -/
def destroyCall (volume : PersistentVolume) (initiator : String) : Call :=
  .export_destroy
    { Pool := lookup volume.Annotations "pool", Vol := lookup volume.Annotations "volume_name",
      InitiatorWwn := initiator }

/-- The success-case sequence of block `Delete`: an `export_destroy` for each
comma-separated entry of the initiators annotation, in the stored order, then
`vol_destroy`. -/
def deleteCalls (volume : PersistentVolume) : List Call :=
  (strings.Split (lookup volume.Annotations "initiators")).map (destroyCall volume) ++
    [.vol_destroy
      { Pool := lookup volume.Annotations "pool",
        Name := lookup volume.Annotations "volume_name" }]

/-- The `(pool, volume, initiator)` triples of the `export_create` calls of a
trace, in order. -/
def createdExports : List Call → List (String × String × String)
  | [] => []
  | .export_create args :: t => (args.Pool, args.Vol, args.InitiatorWwn) :: createdExports t
  | _ :: t => createdExports t

/-- The `(pool, volume, initiator)` triples of the `export_destroy` calls of a
trace, in order. -/
def destroyedExports : List Call → List (String × String × String)
  | [] => []
  | .export_destroy args :: t => (args.Pool, args.Vol, args.InitiatorWwn) :: destroyedExports t
  | _ :: t => destroyedExports t

/-- The access modes the block backend supports, in the words of the
specification: read-write-once and read-only-many. -/
def supportedModes (modes : List PersistentVolumeAccessMode) : Prop :=
  ∀ mode ∈ modes, mode = ReadWriteOnce ∨ mode = ReadOnlyMany

/-- The record block `Provision` returns for `sampleOptions initiators chap`
at LUN `lun`. -/
def sampleVolume (initiators chap : String) (lun : Int) : PersistentVolume :=
  { Name := "pvc-1",
    Annotations := [("volume_name", "pvc-1"), ("pool", "vg-targetd"),
      ("initiators", initiators)],
    PersistentVolumeReclaimPolicy := "Delete", AccessModes := [ReadWriteOnce],
    Capacity := 1024, VolumeMode := none,
    ISCSI :=
      { TargetPortal := "10.0.0.1:3260", Portals := [],
        IQN := "iqn.2003-01.org.example:targetd", ISCSIInterface := "", Lun := lun,
        ReadOnly := false, FSType := "ext4", DiscoveryCHAPAuth := false,
        SessionCHAPAuth := getBool chap,
        SecretRef := getSecretRef false (getBool chap) "iscsi-targetd-chap-secret" } }

end iscsi

namespace nfs

/-- The access modes the file backend supports, in the words of the
specification: read-write-many, read-only-many and read-write-once. -/
def supportedModes (modes : List PersistentVolumeAccessMode) : Prop :=
  ∀ mode ∈ modes, mode = ReadWriteMany ∨ mode = ReadOnlyMany ∨ mode = ReadWriteOnce

/-- The `fs_create` call `createVolume` issues. -/
def createCall (options : ProvisionOptions) : Call :=
  .fs_create { Pool := getVolumeGroup options, Name := getVolumeName options, Size := 0 }

/-- The volumes the daemon lists to the `fs_list` call of `createVolume`:
none when that call fails. -/
def listedVolumes (r : Remote) (options : ProvisionOptions) : volumeList :=
  match r [createCall options] .fs_list with
  | .ok volumes => volumes
  | .error _ => []

/-- The `nfs_export_add` call `createVolume` issues for `host`. -/
def addCall (path : String) (nfsOpts : List String) (host : String) : Call :=
  .nfs_export_add { Host := host, Path := path, Options := nfsOpts }

/-- The `nfs_export_remove` call `Delete` issues for `host`: `Delete` calls
`exportDestroy(host, path)`, whose parameters are `(fullPath, host)`. -/
def removeCall (volume : PersistentVolume) (host : String) : Call :=
  .nfs_export_remove { Host := volume.NFS.Path, Path := host }

/-- A reply to `nfs_export_remove` is a success, or an error whose text
decodes to a structured error with code `NotFoundNfsExport`. -/
def succeededOrAbsent (unmarshal : Unmarshal) : Except String volumeList → Prop
  | .ok _ => True
  | .error text =>
    ∃ errorInfo, unmarshal text = some errorInfo ∧ errorInfo.Code = targetd.NotFoundNfsExport

instance (unmarshal : Unmarshal) (reply : Except String volumeList) :
    Decidable (succeededOrAbsent unmarshal reply) :=
  match reply with
  | .ok _ => isTrue trivial
  | .error text =>
    match h : unmarshal text with
    | none => isFalse (fun ⟨_, he, _⟩ => by rw [h] at he; exact Option.noConfusion he)
    | some errorInfo =>
      if hc : errorInfo.Code = targetd.NotFoundNfsExport then isTrue ⟨errorInfo, h, hc⟩
      else isFalse (fun ⟨e, he, hce⟩ => by
        rw [h] at he
        exact hc ((Option.some.inj he) ▸ hce))

/-- A decoder that knows two error texts: the structured errors with codes
`-400` and `-1`. -/
def sampleUnmarshal : Unmarshal := fun text =>
  if text = "\x7b\"code\":-400,\"message\":\"gone\"\x7d" then
    some { Code := -400, Message := "gone" }
  else if text = "\x7b\"code\":-1,\"message\":\"boom\"\x7d" then
    some { Code := -1, Message := "boom" }
  else none

/-- A daemon that lists the volume `pvc-1` of pool `vg-targetd` and answers
the call number `n` of an invocation (from 0) with the error text `failing n`,
when there is one, every other call succeeding. -/
def sampleRemote (failing : Nat → Option String) : Remote := fun t c =>
  match failing t.length with
  | some text => .error text
  | none =>
    match c with
    | .fs_list =>
      .ok [{ Name := "pvc-1", Uuid := "u-1", TotalSpace := 0, FreeSpace := 0,
             Pool := "vg-targetd", FullPath := "/mnt/pvc-1" }]
    | _ => .ok []

/-- The volume `sampleRemote` lists. -/
def sampleCreated : volume :=
  { Name := "pvc-1", Uuid := "u-1", TotalSpace := 0, FreeSpace := 0, Pool := "vg-targetd",
    FullPath := "/mnt/pvc-1" }

/-- A request for the volume `pvc-1` exported to the hosts `hosts`. -/
def sampleOptions (hosts : String) : ProvisionOptions :=
  { PVName := "pvc-1", Parameters := [("hosts", hosts), ("host", "nas")],
    ReclaimPolicy := "Delete", AccessModes := [ReadWriteMany], Storage := 1024,
    VolumeMode := none }

/-- The record file `Provision` returns for `sampleOptions hosts`. -/
def sampleVolume (hosts : String) : PersistentVolume :=
  { Name := "pvc-1", Annotations := [("uuid", "u-1"), ("hosts", hosts)],
    PersistentVolumeReclaimPolicy := "Delete", AccessModes := [ReadWriteMany],
    Capacity := 1024, VolumeMode := none,
    NFS := { Server := "nas", Path := "/mnt/pvc-1", ReadOnly := false } }

end nfs

/-! ## The LUN allocator -/

namespace iscsi

theorem int32_natCast (n : Nat) (h : n < 255) : int32 (n : Int) = (n : Int) := by
  unfold int32
  omega

theorem mapSet_keys (m : List (Int × Export)) (k : Int) (v : Export) :
    (mapSet m k v).map Prod.fst =
      if k ∈ m.map Prod.fst then m.map Prod.fst else m.map Prod.fst ++ [k] := by
  induction m with
  | nil => simp [mapSet]
  | cons kv m ih =>
    obtain ⟨k', v'⟩ := kv
    by_cases hk : k' = k
    · subst hk
      simp [mapSet]
    · have hk' : ¬ k = k' := fun h => hk h.symm
      by_cases hm : k ∈ m.map Prod.fst
      · simp only [mapSet, hk, if_false, List.map_cons, ih, hm, if_true, List.mem_cons, or_true]
      · simp only [mapSet, hk, if_false, List.map_cons, ih, hm, List.mem_cons, hk', or_self,
          List.cons_append]

theorem mapSet_mem (m : List (Int × Export)) (k : Int) (v : Export) (kv : Int × Export)
    (h : kv ∈ mapSet m k v) : kv = (k, v) ∨ kv ∈ m := by
  induction m with
  | nil => simpa [mapSet] using h
  | cons kv' m ih =>
    obtain ⟨k', v'⟩ := kv'
    by_cases hk : k' = k
    · simp only [mapSet, hk, if_true, List.mem_cons] at h
      rcases h with h | h
      · exact Or.inl h
      · exact Or.inr (List.mem_cons_of_mem _ h)
    · simp only [mapSet, hk, if_false, List.mem_cons] at h
      rcases h with h | h
      · exact Or.inr (h ▸ List.mem_cons_self _ _)
      · rcases ih h with h' | h'
        · exact Or.inl h'
        · exact Or.inr (List.mem_cons_of_mem _ h')

/-- The map built by the first loop of `getFirstAvailableLun` from `m`. -/
theorem foldl_mapSet_keys (l : exportList) (m : List (Int × Export)) :
    (((l.foldl (fun m e => mapSet m e.Lun e) m).map Prod.fst).Nodup ↔ (m.map Prod.fst).Nodup) ∧
    (∀ x, x ∈ (l.foldl (fun m e => mapSet m e.Lun e) m).map Prod.fst ↔
      x ∈ m.map Prod.fst ∨ x ∈ lunsOf l) ∧
    ((∀ kv ∈ m, kv.2.Lun = kv.1) →
      ∀ kv ∈ l.foldl (fun m e => mapSet m e.Lun e) m, kv.2.Lun = kv.1) := by
  induction l generalizing m with
  | nil => simp [lunsOf]
  | cons e l ih =>
    obtain ⟨h1, h2, h3⟩ := ih (mapSet m e.Lun e)
    refine ⟨?_, ?_, ?_⟩
    · rw [List.foldl_cons, h1, mapSet_keys]
      by_cases hm : e.Lun ∈ m.map Prod.fst
      · simp only [hm, if_true]
      · simp only [hm, if_false]
        rw [List.nodup_append]
        have hd : (m.map Prod.fst).Disjoint [e.Lun] := by
          intro x hx hx'
          rw [List.mem_singleton] at hx'
          exact hm (hx' ▸ hx)
        simp only [List.nodup_cons, List.not_mem_nil, not_false_eq_true, List.nodup_nil,
          and_self, true_and, hd, and_true]
    · intro x
      rw [List.foldl_cons, h2, mapSet_keys]
      by_cases hm : e.Lun ∈ m.map Prod.fst
      · simp only [hm, if_true, lunsOf, List.map_cons, List.mem_cons]
        constructor
        · rintro (h | h)
          · exact Or.inl h
          · exact Or.inr (Or.inr h)
        · rintro (h | h | h)
          · exact Or.inl h
          · exact Or.inl (h ▸ hm)
          · exact Or.inr h
      · simp only [hm, if_false, lunsOf, List.map_cons, List.mem_cons, List.mem_append,
          List.mem_singleton]
        tauto
    · intro hm kv hkv
      rw [List.foldl_cons] at hkv
      refine h3 ?_ kv hkv
      intro kv' hkv'
      rcases mapSet_mem m e.Lun e kv' hkv' with h | h
      · rw [h]
      · exact hm kv' h

/-- The slice `luns` of `getFirstAvailableLun` holds each LUN of the list once. -/
theorem getFirstAvailableLun_eq (l : exportList) :
    ∃ luns : List Int, luns.Nodup ∧ (∀ x, x ∈ luns ↔ x ∈ lunsOf l) ∧
      getFirstAvailableLun l = lunFromList luns := by
  obtain ⟨h1, h2, h3⟩ := foldl_mapSet_keys (exportList.sort l) []
  have hval : ((exportList.sort l).foldl (fun m e => mapSet m e.Lun e) []).map
      (fun kv => kv.2.Lun) =
      ((exportList.sort l).foldl (fun m e => mapSet m e.Lun e) []).map Prod.fst :=
    List.map_congr_left (h3 (by simp))
  refine ⟨_, ?_, ?_, rfl⟩
  · rw [hval, h1]
    exact List.nodup_nil
  · intro x
    rw [hval, h2]
    simp only [List.map_nil, List.not_mem_nil, false_or, lunsOf, exportList.sort]
    exact ((List.perm_insertionSort exportList.le l).map _).mem_iff

theorem lunFromList_perm {luns₁ luns₂ : List Int} (h : luns₁.Perm luns₂) :
    lunFromList luns₁ = lunFromList luns₂ := by
  have hs : luns₁.insertionSort (· ≤ ·) = luns₂.insertionSort (· ≤ ·) :=
    List.eq_of_perm_of_sorted
      (((List.perm_insertionSort _ luns₁).trans h).trans (List.perm_insertionSort _ luns₂).symm)
      (List.sorted_insertionSort _ _) (List.sorted_insertionSort _ _)
  simp only [lunFromList, h.length_eq, hs]

theorem length_eq_distinctLuns (l : exportList) (luns : List Int) (hn : luns.Nodup)
    (hm : ∀ x, x ∈ luns ↔ x ∈ lunsOf l) : luns.length = distinctLuns l := by
  have hp : luns.Perm (lunsOf l).dedup :=
    (List.perm_ext_iff_of_nodup hn (List.nodup_dedup _)).2
      (fun x => by rw [hm, List.mem_dedup])
  exact hp.length_eq

/-- The loop returns an index between its entry index and the length. -/
theorem scanLuns_range (s : List Int) (i : Nat) (h : i + s.length < 255) :
    (i : Int) ≤ scanLuns (int32 ((i + s.length : Nat) : Int)) i s ∧
      scanLuns (int32 ((i + s.length : Nat) : Int)) i s ≤ ((i + s.length : Nat) : Int) := by
  induction s generalizing i with
  | nil => simp [scanLuns, int32_natCast i (by simpa using h)]
  | cons c rest ih =>
    have hlen : i + (c :: rest).length = (i + 1) + rest.length := by
      simp only [List.length_cons]; omega
    rw [hlen] at h ⊢
    unfold scanLuns
    by_cases hc : (i : Int) < c
    · rw [if_pos hc, int32_natCast i (by omega)]
      exact ⟨le_refl _, by push_cast; omega⟩
    · rw [if_neg hc]
      have := ih (i + 1) h
      exact ⟨by push_cast at this ⊢; omega, this.2⟩

/-- The loop over a sorted slice returns a value the slice does not hold. -/
theorem scanLuns_not_mem (s : List Int) (i : Nat) (h : i + s.length < 255)
    (hs : s.Sorted (· ≤ ·)) :
    scanLuns (int32 ((i + s.length : Nat) : Int)) i s ∉ s := by
  induction s generalizing i with
  | nil => simp
  | cons c rest ih =>
    have hlen : i + (c :: rest).length = (i + 1) + rest.length := by
      simp only [List.length_cons]; omega
    rw [hlen] at h ⊢
    have hrest := List.rel_of_sorted_cons hs
    unfold scanLuns
    by_cases hc : (i : Int) < c
    · rw [if_pos hc, int32_natCast i (by omega)]
      intro hmem
      rcases List.mem_cons.1 hmem with h' | h'
      · omega
      · have := hrest _ h'
        omega
    · rw [if_neg hc]
      intro hmem
      rcases List.mem_cons.1 hmem with h' | h'
      · have := (scanLuns_range rest (i + 1) h).1
        rw [h'] at this
        push_cast at this
        omega
      · exact ih (i + 1) h hs.of_cons h'

/-- Over a strictly sorted slice with no value below the entry index, the
slice holds every value from the entry index up to the one returned. -/
theorem scanLuns_below_mem (s : List Int) (i : Nat) (h : i + s.length < 255)
    (hs : s.Sorted (· < ·)) (hlow : ∀ x ∈ s, (i : Int) ≤ x) (k : Int) (hk : (i : Int) ≤ k)
    (hlt : k < scanLuns (int32 ((i + s.length : Nat) : Int)) i s) : k ∈ s := by
  induction s generalizing i with
  | nil =>
    simp only [scanLuns, List.length_nil, Nat.add_zero, int32_natCast i (by simpa using h)] at hlt
    omega
  | cons c rest ih =>
    have hlen : i + (c :: rest).length = (i + 1) + rest.length := by
      simp only [List.length_cons]; omega
    rw [hlen] at h hlt
    have hrest := List.rel_of_sorted_cons hs
    unfold scanLuns at hlt
    by_cases hc : (i : Int) < c
    · rw [if_pos hc, int32_natCast i (by omega)] at hlt
      omega
    · rw [if_neg hc] at hlt
      have hci : c = (i : Int) := by
        have := hlow c (List.mem_cons_self _ _)
        omega
      by_cases hki : k = (i : Int)
      · rw [hki, ← hci]
        exact List.mem_cons_self _ _
      · refine List.mem_cons_of_mem _ (ih (i + 1) h hs.of_cons ?_ (by push_cast; omega) hlt)
        intro x hx
        have := hrest x hx
        push_cast
        omega

/-- The outcome of `lunFromList` on a slice without repetitions. -/
theorem lunFromList_spec (luns : List Int) (hn : luns.Nodup) :
    (255 ≤ luns.length ∧
      lunFromList luns = (-1, some (.new "255 luns allocated no more luns available"))) ∨
    (luns.length < 255 ∧ ∃ lun : Int, lunFromList luns = (lun, none) ∧ 0 ≤ lun ∧ lun < 255 ∧
      lun ∉ luns ∧ ((∀ x ∈ luns, 0 ≤ x) → ∀ k : Int, 0 ≤ k → k < lun → k ∈ luns)) := by
  by_cases hlen : 255 ≤ luns.length
  · exact Or.inl ⟨hlen, by simp [lunFromList, hlen]⟩
  · refine Or.inr ⟨by omega,
      scanLuns (int32 ((luns.insertionSort (· ≤ ·)).length : Nat)) 0
        (luns.insertionSort (· ≤ ·)), ?_, ?_⟩
    · unfold lunFromList
      rw [if_neg hlen]
    have hp := List.perm_insertionSort (· ≤ ·) luns
    have hsl : 0 + (luns.insertionSort (· ≤ ·)).length < 255 := by
      rw [List.length_insertionSort]; omega
    have hs := List.sorted_insertionSort (· ≤ ·) luns
    have hr := scanLuns_range _ 0 hsl
    have hnm := scanLuns_not_mem _ 0 hsl hs
    simp only [Nat.zero_add] at hr hnm
    refine ⟨by simpa using hr.1, ?_, fun hmem => hnm (hp.mem_iff.2 hmem), ?_⟩
    · have := hr.2
      rw [List.length_insertionSort] at this
      omega
    · intro hpos k hk hlt
      have := scanLuns_below_mem _ 0 hsl (hs.lt_of_le (hp.nodup_iff.2 hn))
        (fun x hx => by simpa using hpos x (hp.mem_iff.1 hx)) k (by simpa using hk)
        (by simpa using hlt)
      exact hp.mem_iff.1 this

/-- The outcome of `getFirstAvailableLun` on any export list. -/
theorem getFirstAvailableLun_spec (l : exportList) :
    (255 ≤ distinctLuns l ∧
      getFirstAvailableLun l = (-1, some (.new "255 luns allocated no more luns available"))) ∨
    (distinctLuns l < 255 ∧ ∃ lun : Int, getFirstAvailableLun l = (lun, none) ∧ 0 ≤ lun ∧
      lun < 255 ∧ lun ∉ lunsOf l ∧
      ((∀ x ∈ lunsOf l, 0 ≤ x) → ∀ k : Int, 0 ≤ k → k < lun → k ∈ lunsOf l)) := by
  obtain ⟨luns, hn, hm, heq⟩ := getFirstAvailableLun_eq l
  have hlen := length_eq_distinctLuns l luns hn hm
  rw [heq, ← hlen]
  rcases lunFromList_spec luns hn with h | ⟨h, lun, h1, h2, h3, h4, h5⟩
  · exact Or.inl h
  · refine Or.inr ⟨h, lun, h1, h2, h3, fun hmem => h4 ((hm _).2 hmem), ?_⟩
    intro hpos k hk hlt
    exact (hm k).1 (h5 (fun x hx => hpos x ((hm x).1 hx)) k hk hlt)

end iscsi

/-! ## The LUN allocator: minimum free slot, exhaustion, dependence on the LUN set -/

namespace iscsi

/-- C1, as stated, fails: on the list with the single LUN `-1` the allocator
returns `1`, which is not the minimum free slot (`0` is free). -/
theorem getFirstAvailableLun_negative_not_first_free :
    getFirstAvailableLun [exportAt (-1)] = (1, none) ∧ ¬ IsFirstFree [exportAt (-1)] 1 := by
  refine ⟨by decide, ?_⟩
  intro h
  have := h.2.2 0 (le_refl _) (by decide)
  omega

/-- C1, amended: on every export list whose LUNs are all non-negative and on
which `getFirstAvailableLun` succeeds, the returned LUN is the smallest
non-negative integer that is the LUN of no export in the list. -/
theorem getFirstAvailableLun_first_free (l : exportList) (lun : Int)
    (hpos : ∀ e ∈ l, 0 ≤ e.Lun) (h : getFirstAvailableLun l = (lun, none)) :
    IsFirstFree l lun := by
  rcases getFirstAvailableLun_spec l with ⟨_, h'⟩ | ⟨_, lun', h', h0, _, hfree, hmin⟩
  · rw [h] at h'
    exact absurd (congrArg Prod.snd h') (by simp)
  · rw [h] at h'
    have hl : lun = lun' := congrArg Prod.fst h'
    subst hl
    refine ⟨h0, hfree, fun k hk hkfree => ?_⟩
    by_contra hlt
    refine hkfree (hmin ?_ k hk (not_le.1 hlt))
    intro x hx
    obtain ⟨e, he, rfl⟩ := List.mem_map.1 hx
    exact hpos e he

/-- C1, the scenarios of the specification: `[{LUN:0},{LUN:1},{LUN:1}]`
gives `2` and the empty list gives `0`, each the minimum free slot. -/
theorem getFirstAvailableLun_first_free_witness :
    (getFirstAvailableLun
        [{ exportAt 0 with InitiatorWwn := "a" }, { exportAt 1 with InitiatorWwn := "a" },
          { exportAt 1 with InitiatorWwn := "b" }] = (2, none) ∧
      IsFirstFree
        [{ exportAt 0 with InitiatorWwn := "a" }, { exportAt 1 with InitiatorWwn := "a" },
          { exportAt 1 with InitiatorWwn := "b" }] 2) ∧
    (getFirstAvailableLun [] = (0, none) ∧ IsFirstFree [] 0) :=
  ⟨⟨by decide, getFirstAvailableLun_first_free _ 2 (by decide) (by decide)⟩,
    ⟨by decide, getFirstAvailableLun_first_free [] 0 (by decide) (by decide)⟩⟩

/-- C2: on every export list on which `getFirstAvailableLun` succeeds, the
returned LUN differs from the LUN of every export in the list. -/
theorem getFirstAvailableLun_not_used (l : exportList) (lun : Int)
    (h : getFirstAvailableLun l = (lun, none)) : ∀ e ∈ l, e.Lun ≠ lun := by
  rcases getFirstAvailableLun_spec l with ⟨_, h'⟩ | ⟨_, lun', h', _, _, hfree, _⟩
  · rw [h] at h'
    exact absurd (congrArg Prod.snd h') (by simp)
  · rw [h] at h'
    have hl : lun = lun' := congrArg Prod.fst h'
    subst hl
    intro e he heq
    exact hfree (List.mem_map.2 ⟨e, he, heq⟩)

/-- C2 on the list of LUNs `5, -1, 0`: the allocator returns `2`, the LUN of
none of the three exports. -/
theorem getFirstAvailableLun_not_used_witness :
    getFirstAvailableLun [exportAt 5, exportAt (-1), exportAt 0] = (2, none) ∧
      ∀ e ∈ [exportAt 5, exportAt (-1), exportAt 0], e.Lun ≠ 2 :=
  ⟨by decide, getFirstAvailableLun_not_used _ 2 (by decide)⟩

/-- C3: on every export list `getFirstAvailableLun` fails with an error if and
only if the list holds at least 255 distinct LUN values, and when it does not
fail its LUN is in the range `0 <= lun < 255`; the list of the 255 LUNs
`0..254` fails. -/
theorem getFirstAvailableLun_fails_iff :
    (∀ l : exportList,
      ((getFirstAvailableLun l).2 ≠ none ↔ 255 ≤ distinctLuns l) ∧
      ((getFirstAvailableLun l).2 ≠ none ∨
        (0 ≤ (getFirstAvailableLun l).1 ∧ (getFirstAvailableLun l).1 < 255))) ∧
    distinctLuns ((List.range 255).map (fun n : Nat => exportAt (n : Int))) = 255 ∧
    (getFirstAvailableLun ((List.range 255).map (fun n : Nat => exportAt (n : Int)))).2 ≠ none := by
  have hall : ∀ l : exportList,
      ((getFirstAvailableLun l).2 ≠ none ↔ 255 ≤ distinctLuns l) ∧
      ((getFirstAvailableLun l).2 ≠ none ∨
        (0 ≤ (getFirstAvailableLun l).1 ∧ (getFirstAvailableLun l).1 < 255)) := by
    intro l
    rcases getFirstAvailableLun_spec l with ⟨hd, h⟩ | ⟨hd, lun, h, h0, h255, _, _⟩
    · rw [h]
      exact ⟨⟨fun _ => hd, fun _ => by simp⟩, Or.inl (by simp)⟩
    · rw [h]
      exact ⟨⟨fun hne => absurd rfl hne, fun hge => by omega⟩, Or.inr ⟨h0, h255⟩⟩
  have hcount : distinctLuns ((List.range 255).map (fun n : Nat => exportAt (n : Int))) = 255 := by
    have hl : ∀ m : Nat, lunsOf ((List.range m).map (fun n : Nat => exportAt (n : Int))) =
        (List.range m).map (fun n : Nat => (n : Int)) := by
      intro m
      unfold lunsOf
      rw [List.map_map]
      rfl
    have hn : ∀ m : Nat, ((List.range m).map (fun n : Nat => (n : Int))).Nodup :=
      fun m => (List.nodup_range m).map Nat.cast_injective
    rw [distinctLuns, hl, (hn 255).dedup, List.length_map, List.length_range]
  exact ⟨hall, hcount, ((hall _).1).2 (le_of_eq hcount.symm)⟩

/-- C4: two export lists that hold the same set of LUN values, in any order,
with any multiplicities and any other export fields, give the same outcome of
`getFirstAvailableLun` (the same LUN, or the same failure). -/
theorem getFirstAvailableLun_depends_on_lun_set (l₁ l₂ : exportList)
    (h : ∀ x, x ∈ lunsOf l₁ ↔ x ∈ lunsOf l₂) :
    getFirstAvailableLun l₁ = getFirstAvailableLun l₂ := by
  obtain ⟨luns₁, hn₁, hm₁, heq₁⟩ := getFirstAvailableLun_eq l₁
  obtain ⟨luns₂, hn₂, hm₂, heq₂⟩ := getFirstAvailableLun_eq l₂
  rw [heq₁, heq₂]
  exact lunFromList_perm
    ((List.perm_ext_iff_of_nodup hn₁ hn₂).2 (fun x => by rw [hm₁, hm₂, h]))

/-- C4 on two lists with the LUN set `{0, 1}`: one volume at LUN 1 exported
to two initiators and another at LUN 0, against one export per LUN. -/
theorem getFirstAvailableLun_depends_on_lun_set_witness :
    getFirstAvailableLun
        [{ exportAt 1 with InitiatorWwn := "a", VolName := "v" },
          { exportAt 0 with InitiatorWwn := "a", VolName := "w" },
          { exportAt 1 with InitiatorWwn := "b", VolName := "v" }] =
      getFirstAvailableLun [exportAt 0, exportAt 1] :=
  getFirstAvailableLun_depends_on_lun_set _ _ (by
    intro x
    simp only [lunsOf, exportAt, List.map_cons, List.map_nil, List.mem_cons, List.not_mem_nil,
      or_false]
    tauto)

end iscsi

/-! ## The file backend: exports on create, exports and volume on delete -/

namespace nfs

/-- The export loop of `createVolume` issues one `nfs_export_add` per host,
whatever the replies. -/
theorem createExports_trace (r : Remote) (path : String) (nfsOpts : List String)
    (hosts : List String) (err : Option GoError) (t : List Call) :
    (createExports r path nfsOpts hosts err t).2 = t ++ hosts.map (addCall path nfsOpts) := by
  induction hosts generalizing err t with
  | nil => simp [createExports]
  | cons host rest ih =>
    simp only [createExports, exportCreate, call, ih, List.map_cons, List.append_assoc,
      List.singleton_append, addCall]

/-- The export loop of `createVolume` returns the error of its last call. -/
theorem createExports_err (r : Remote) (path : String) (nfsOpts : List String)
    (hosts : List String) (last : String) (err : Option GoError) (t : List Call) :
    (createExports r path nfsOpts (hosts ++ [last]) err t).1 =
      errOf (r (t ++ hosts.map (addCall path nfsOpts)) (addCall path nfsOpts last)) := by
  induction hosts generalizing err t with
  | nil => simp [createExports, exportCreate, call, addCall]
  | cons host rest ih =>
    have := ih (errOf (r t (addCall path nfsOpts host))) (t ++ [addCall path nfsOpts host])
    simpa only [List.cons_append, createExports, exportCreate, call, List.map_cons,
      List.append_assoc, List.singleton_append, addCall] using this

/-- The export loop of `Delete` runs to its end when every call succeeds or
fails as already absent. -/
theorem destroyExports_tolerated (unmarshal : Unmarshal) (r : Remote)
    (volume : PersistentVolume) (hosts : List String) (t : List Call)
    (h : ∀ k host, hosts[k]? = some host →
      succeededOrAbsent unmarshal
        (r (t ++ (hosts.take k).map (removeCall volume)) (removeCall volume host))) :
    destroyExports unmarshal r volume hosts t = (none, t ++ hosts.map (removeCall volume)) := by
  induction hosts generalizing t with
  | nil => simp [destroyExports]
  | cons host rest ih =>
    have h0 := h 0 host (by simp)
    simp only [List.take_zero, List.map_nil, List.append_nil] at h0
    have hrest : destroyExports unmarshal r volume rest (t ++ [removeCall volume host]) =
        (none, t ++ (host :: rest).map (removeCall volume)) := by
      rw [ih (t ++ [removeCall volume host])]
      · simp
      · intro k host' hk
        have := h (k + 1) host' (by simpa using hk)
        simpa using this
    unfold destroyExports
    simp only [exportDestroy, call]
    change (match (errOf (r t (removeCall volume host)), t ++ [removeCall volume host]) with
      | (some err, t) =>
        match unmarshal err.Error with
        | none => (some err, t)
        | some errorInfo =>
          if errorInfo.Code ≠ targetd.NotFoundNfsExport then (some errorInfo.toError, t)
          else destroyExports unmarshal r volume rest t
      | (none, t) => destroyExports unmarshal r volume rest t) = _
    cases hr : r t (removeCall volume host) with
    | ok l => simpa [errOf] using hrest
    | error text =>
      rw [hr] at h0
      obtain ⟨errorInfo, hdec, hcode⟩ := h0
      simpa [errOf, GoError.Error, hdec, hcode] using hrest

/-- One turn of the export loop of `Delete`, by the reply to its call. -/
theorem destroyExports_cons (unmarshal : Unmarshal) (r : Remote) (volume : PersistentVolume)
    (host : String) (rest : List String) (t : List Call) :
    destroyExports unmarshal r volume (host :: rest) t =
      match r t (removeCall volume host) with
      | .ok _ => destroyExports unmarshal r volume rest (t ++ [removeCall volume host])
      | .error text =>
        match unmarshal text with
        | none => (some (.rpc text), t ++ [removeCall volume host])
        | some errorInfo =>
          if errorInfo.Code = targetd.NotFoundNfsExport then
            destroyExports unmarshal r volume rest (t ++ [removeCall volume host])
          else (some (.errorInfo errorInfo.Code errorInfo.Message), t ++ [removeCall volume host]) := by
  conv_lhs => unfold destroyExports
  simp only [exportDestroy, call]
  change (match (errOf (r t (removeCall volume host)), t ++ [removeCall volume host]) with
    | (some err, t) =>
      match unmarshal err.Error with
      | none => (some err, t)
      | some errorInfo =>
        if errorInfo.Code ≠ targetd.NotFoundNfsExport then (some errorInfo.toError, t)
        else destroyExports unmarshal r volume rest t
    | (none, t) => destroyExports unmarshal r volume rest t) = _
  cases hr : r t (removeCall volume host) with
  | ok l => simp [errOf]
  | error text =>
    cases hdec : unmarshal text with
    | none => simp [errOf, GoError.Error, hdec]
    | some errorInfo =>
      by_cases hcode : errorInfo.Code = targetd.NotFoundNfsExport
      · simp [errOf, GoError.Error, hdec, hcode]
      · simp [errOf, GoError.Error, hdec, hcode, targetd.ErrorInfo.toError]

/-- The export loop of `Delete` stops at the first call that fails with an
error that does not decode, or decodes with another code than
`NotFoundNfsExport`. -/
theorem destroyExports_abort (unmarshal : Unmarshal) (r : Remote)
    (volume : PersistentVolume) (hosts : List String) (t : List Call) (k : Nat)
    (host text : String)
    (hbefore : ∀ j host', j < k → hosts[j]? = some host' →
      succeededOrAbsent unmarshal
        (r (t ++ (hosts.take j).map (removeCall volume)) (removeCall volume host')))
    (hk : hosts[k]? = some host)
    (hr : r (t ++ (hosts.take k).map (removeCall volume)) (removeCall volume host) =
      .error text)
    (hbad : ¬ succeededOrAbsent unmarshal (.error text)) :
    ∃ err, destroyExports unmarshal r volume hosts t =
        (some err, t ++ (hosts.take (k + 1)).map (removeCall volume)) ∧
      (unmarshal text = none → err = .rpc text) ∧
      (∀ errorInfo, unmarshal text = some errorInfo →
        err = .errorInfo errorInfo.Code errorInfo.Message) := by
  induction hosts generalizing t k with
  | nil => simp at hk
  | cons host₀ rest ih =>
    cases k with
    | zero =>
      have hh : host₀ = host := by simpa using hk
      subst hh
      simp only [List.take_zero, List.map_nil, List.append_nil] at hr
      rw [destroyExports_cons, hr]
      cases hdec : unmarshal text with
      | none => exact ⟨.rpc text, by simp [hdec], fun _ => rfl, fun _ h => by simp at h⟩
      | some errorInfo =>
        have hcode : ¬ errorInfo.Code = targetd.NotFoundNfsExport :=
          fun hc => hbad ⟨errorInfo, hdec, hc⟩
        refine ⟨.errorInfo errorInfo.Code errorInfo.Message, by simp [hdec, hcode],
          fun h => by simp at h, fun e he => ?_⟩
        have : errorInfo = e := by simpa using he
        rw [this]
    | succ k =>
      have h0 := hbefore 0 host₀ (Nat.succ_pos k) (by simp)
      simp only [List.take_zero, List.map_nil, List.append_nil] at h0
      obtain ⟨err, he, h1, h2⟩ := ih (t ++ [removeCall volume host₀]) k
        (fun j host' hj hget => by
          have := hbefore (j + 1) host' (Nat.succ_lt_succ hj) (by simpa using hget)
          simpa using this)
        (by simpa using hk) (by simpa using hr)
      have hgo : destroyExports unmarshal r volume (host₀ :: rest) t =
          destroyExports unmarshal r volume rest (t ++ [removeCall volume host₀]) := by
        rw [destroyExports_cons]
        cases hr₀ : r t (removeCall volume host₀) with
        | ok l => rfl
        | error text₀ =>
          rw [hr₀] at h0
          obtain ⟨errorInfo, hdec, hcode⟩ := h0
          simp [hdec, hcode]
      exact ⟨err, by rw [hgo, he]; simp, h1, h2⟩

/-- The export loop of `Delete` issues `nfs_export_remove` calls only. -/
theorem destroyExports_calls (unmarshal : Unmarshal) (r : Remote) (volume : PersistentVolume)
    (hosts : List String) (t : List Call) :
    ∃ done : List String, (destroyExports unmarshal r volume hosts t).2 =
      t ++ done.map (removeCall volume) ∧ done <+: hosts := by
  induction hosts generalizing t with
  | nil => exact ⟨[], by simp [destroyExports], List.prefix_refl _⟩
  | cons host rest ih =>
    obtain ⟨done, hd, hp⟩ := ih (t ++ [removeCall volume host])
    have hgo : (destroyExports unmarshal r volume rest (t ++ [removeCall volume host])).2 =
        t ++ (host :: done).map (removeCall volume) := by
      rw [hd]; simp
    have hstop : t ++ [removeCall volume host] = t ++ [host].map (removeCall volume) := by simp
    have hp1 : [host] <+: host :: rest := ⟨rest, rfl⟩
    have hp2 : host :: done <+: host :: rest := by
      obtain ⟨q, hq⟩ := hp
      exact ⟨q, by rw [← hq]; rfl⟩
    rw [destroyExports_cons]
    cases r t (removeCall volume host) with
    | ok l => exact ⟨host :: done, hgo, hp2⟩
    | error text =>
      dsimp only
      cases unmarshal text with
      | none => exact ⟨[host], hstop, hp1⟩
      | some errorInfo =>
        dsimp only
        by_cases hcode : errorInfo.Code = targetd.NotFoundNfsExport
        · rw [if_pos hcode]
          exact ⟨host :: done, hgo, hp2⟩
        · rw [if_neg hcode]
          exact ⟨[host], hstop, hp1⟩

/-- When its export loop returns with an error, so does `Delete`. -/
theorem Delete_of_loop_error (unmarshal : Unmarshal) (r : Remote) (volume : PersistentVolume)
    (err : GoError) (t : List Call)
    (h : destroyExports unmarshal r volume
      (strings.Split (lookup volume.Annotations "hosts")) [] = (some err, t)) :
    Delete unmarshal r volume = (some err, t) := by
  unfold Delete
  rw [h]

/-- When its export loop runs to its end, `Delete` issues `fs_destroy` and
returns `nil`. -/
theorem Delete_of_loop_end (unmarshal : Unmarshal) (r : Remote) (volume : PersistentVolume)
    (t : List Call)
    (h : destroyExports unmarshal r volume
      (strings.Split (lookup volume.Annotations "hosts")) [] = (none, t)) :
    Delete unmarshal r volume =
      (none, t ++ [.fs_destroy { Uuid := lookup volume.Annotations "uuid" }]) := by
  unfold Delete
  rw [h]
  simp only [volDestroy, call]
  cases r t (.fs_destroy { Uuid := lookup volume.Annotations "uuid" }) with
  | ok l => rfl
  | error text =>
    simp only [errOf, GoError.Error]
    cases unmarshal text with
    | none => rfl
    | some errorInfo =>
      dsimp only
      split <;> rfl

/-- The calls of file `Delete` are export-destroy calls for a prefix of the
hosts, each with the record's path as host and the host as path, followed or
not by `fs_destroy`. -/
theorem Delete_calls (unmarshal : Unmarshal) (r : Remote) (volume : PersistentVolume) :
    ∃ done : List String, done <+: strings.Split (lookup volume.Annotations "hosts") ∧
      ((Delete unmarshal r volume).2 = done.map (removeCall volume) ∨
        (Delete unmarshal r volume).2 = done.map (removeCall volume) ++
          [.fs_destroy { Uuid := lookup volume.Annotations "uuid" }]) := by
  obtain ⟨done, hd, hp⟩ := destroyExports_calls unmarshal r volume
    (strings.Split (lookup volume.Annotations "hosts")) []
  rw [List.nil_append] at hd
  refine ⟨done, hp, ?_⟩
  cases hloop : destroyExports unmarshal r volume
      (strings.Split (lookup volume.Annotations "hosts")) [] with
  | mk e t =>
    rw [hloop] at hd
    cases e with
    | none =>
      rw [Delete_of_loop_end unmarshal r volume t hloop]
      exact Or.inr (by rw [← hd])
    | some err =>
      rw [Delete_of_loop_error unmarshal r volume err t hloop]
      exact Or.inl hd

/-- Once `fs_create` succeeded and `fs_list` holds the created volume, file
`Provision` issues an `nfs_export_add` for every host and returns the error of
the last of these calls: an error and no record when that call fails, a
record when it succeeds, whatever the replies for the hosts before. -/
theorem Provision_after_find (r : Remote) (options : ProvisionOptions)
    (result volumes : volumeList) (created : volume) (hosts : List String) (last : String)
    (hv : AccessModesContainedInAll getAccessModes options.AccessModes = true)
    (hcreate : r [] (createCall options) = .ok result)
    (hlist : r [createCall options] .fs_list = .ok volumes)
    (hfind : volumes.find? (fun volume => volume.Pool = getVolumeGroup options ∧
      volume.Name = getVolumeName options) = some created)
    (hhosts : getHosts options = hosts ++ [last]) :
    (Provision r options).2 =
      [createCall options, .fs_list] ++
        (hosts ++ [last]).map (addCall created.FullPath (getNfsOptions options)) ∧
    (Provision r options).1.err =
      errOf (r ([createCall options, .fs_list] ++
        hosts.map (addCall created.FullPath (getNfsOptions options)))
        (addCall created.FullPath (getNfsOptions options) last)) ∧
    ((Provision r options).1.err = none ↔ (Provision r options).1.pv ≠ none) := by
  have htrace := createExports_trace r created.FullPath (getNfsOptions options)
    (hosts ++ [last]) none [createCall options, .fs_list]
  have herr := createExports_err r created.FullPath (getNfsOptions options) hosts last none
    [createCall options, .fs_list]
  have hcv : createVolume r options [] =
      ({ vol := getVolumeName options, pool := getVolumeGroup options,
         path := created.FullPath, uuid := created.Uuid,
         err := (createExports r created.FullPath (getNfsOptions options) (hosts ++ [last])
           none [createCall options, .fs_list]).1 },
        (createExports r created.FullPath (getNfsOptions options) (hosts ++ [last])
           none [createCall options, .fs_list]).2) := by
    unfold createCall at hcreate hlist ⊢
    have hfind' := hfind
    simp only [Bool.decide_and] at hfind'
    simp [createVolume, volCreate, volFind, volList, call, hcreate, hlist, hfind', errOf, hhosts]
  rw [← herr, ← htrace]
  cases hloop : createExports r created.FullPath (getNfsOptions options) (hosts ++ [last])
      none [createCall options, .fs_list] with
  | mk e t =>
    rw [hloop] at hcv
    cases e with
    | none => simp [Provision, hv, hcv]
    | some err => simp [Provision, hv, hcv]

/-- C5, on the code: with hosts `h1,h2`, validation passing, `fs_create`
succeeding and the created volume listed, a failure of `nfs_export_add` for
the last host `h2` makes `Provision` return that error and no volume record,
after an `nfs_export_add` for each host; the same failure for `h1` alone
leaves `Provision` successful. -/
theorem Provision_fails_when_last_export_fails :
    Provision (sampleRemote (fun n => if n = 3 then some "boom" else none))
        (sampleOptions "h1,h2") =
      ({ pv := none, state := .ProvisioningNoChange, err := some (.rpc "boom") },
        [.fs_create { Pool := "vg-targetd", Name := "pvc-1", Size := 0 }, .fs_list,
          .nfs_export_add { Host := "h1", Path := "/mnt/pvc-1", Options := [""] },
          .nfs_export_add { Host := "h2", Path := "/mnt/pvc-1", Options := [""] }]) ∧
    Provision (sampleRemote (fun n => if n = 2 then some "boom" else none))
        (sampleOptions "h1,h2") =
      ({ pv := some (sampleVolume "h1,h2"), state := .ProvisioningFinished, err := none },
        [.fs_create { Pool := "vg-targetd", Name := "pvc-1", Size := 0 }, .fs_list,
          .nfs_export_add { Host := "h1", Path := "/mnt/pvc-1", Options := [""] },
          .nfs_export_add { Host := "h2", Path := "/mnt/pvc-1", Options := [""] }]) := by
  constructor <;> decide

/-- C6, on the code: for the record of volume `pvc-1` exported to host `h1` at
path `/mnt/pvc-1`, `Provision` calls `nfs_export_add` with host `h1` and path
`/mnt/pvc-1`, and `Delete` calls `nfs_export_remove` with host `/mnt/pvc-1`
and path `h1`. -/
theorem Delete_export_remove_swaps_host_and_path :
    Provision (sampleRemote (fun _ => none)) (sampleOptions "h1") =
      ({ pv := some (sampleVolume "h1"), state := .ProvisioningFinished, err := none },
        [.fs_create { Pool := "vg-targetd", Name := "pvc-1", Size := 0 }, .fs_list,
          .nfs_export_add { Host := "h1", Path := "/mnt/pvc-1", Options := [""] }]) ∧
    Delete sampleUnmarshal (sampleRemote (fun _ => none)) (sampleVolume "h1") =
      (none, [.nfs_export_remove { Host := "/mnt/pvc-1", Path := "h1" },
        .fs_destroy { Uuid := "u-1" }]) := by
  constructor <;> decide

/-- C8: when every export-destroy call of file `Delete` succeeds or fails
with an error whose text decodes to code `NotFoundNfsExport`, `Delete` issues
an export-destroy call for every host of the hosts annotation, then
`fs_destroy` with the uuid annotation, and returns success. -/
theorem Delete_absent_exports_succeed (unmarshal : Unmarshal) (r : Remote)
    (volume : PersistentVolume)
    (h : ∀ k host, (strings.Split (lookup volume.Annotations "hosts"))[k]? = some host →
      succeededOrAbsent unmarshal
        (r (((strings.Split (lookup volume.Annotations "hosts")).take k).map
          (removeCall volume)) (removeCall volume host))) :
    Delete unmarshal r volume =
      (none, (strings.Split (lookup volume.Annotations "hosts")).map (removeCall volume) ++
        [.fs_destroy { Uuid := lookup volume.Annotations "uuid" }]) := by
  have hloop := destroyExports_tolerated unmarshal r volume
    (strings.Split (lookup volume.Annotations "hosts")) [] (by simpa using h)
  rw [Delete_of_loop_end unmarshal r volume _ hloop]
  simp

/-- C8 on the scenario of the specification: export-destroy for the first of
two hosts fails with the structured error of code `-400`; `Delete` goes on to
the second host and to `fs_destroy`, and returns success. -/
theorem Delete_absent_exports_succeed_witness :
    Delete sampleUnmarshal
        (sampleRemote (fun n =>
          if n = 0 then some "\x7b\"code\":-400,\"message\":\"gone\"\x7d" else none))
        (sampleVolume "hostA,hostB") =
      (none, [removeCall (sampleVolume "hostA,hostB") "hostA",
        removeCall (sampleVolume "hostA,hostB") "hostB", .fs_destroy { Uuid := "u-1" }]) :=
  Delete_absent_exports_succeed sampleUnmarshal _ (sampleVolume "hostA,hostB") (by
    have hs : strings.Split (lookup (sampleVolume "hostA,hostB").Annotations "hosts") =
        ["hostA", "hostB"] := by decide
    rw [hs]
    intro k host hk
    match k, hk with
    | 0, hk =>
      obtain rfl : "hostA" = host := by simpa using hk
      decide
    | 1, hk =>
      obtain rfl : "hostB" = host := by simpa using hk
      decide
    | k + 2, hk => simp at hk)

/-- C9: when the export-destroy call of file `Delete` for the host at
position `k` fails with an error whose text does not decode, or decodes with
a code other than `NotFoundNfsExport` (the calls before it having succeeded
or failed as already absent), `Delete` returns an error and its calls are the
export-destroy calls up to that one and nothing else: no export-destroy for
the remaining hosts, no `fs_destroy`.  The error is the original one when the
text does not decode, and carries the decoded code and message when it does. -/
theorem Delete_aborts_on_export_error (unmarshal : Unmarshal) (r : Remote)
    (volume : PersistentVolume) (k : Nat) (host text : String)
    (hbefore : ∀ j host', j < k →
      (strings.Split (lookup volume.Annotations "hosts"))[j]? = some host' →
      succeededOrAbsent unmarshal
        (r (((strings.Split (lookup volume.Annotations "hosts")).take j).map
          (removeCall volume)) (removeCall volume host')))
    (hk : (strings.Split (lookup volume.Annotations "hosts"))[k]? = some host)
    (hr : r (((strings.Split (lookup volume.Annotations "hosts")).take k).map
      (removeCall volume)) (removeCall volume host) = .error text)
    (hbad : unmarshal text = none ∨
      ∃ errorInfo, unmarshal text = some errorInfo ∧
        errorInfo.Code ≠ targetd.NotFoundNfsExport) :
    ∃ err, Delete unmarshal r volume =
        (some err, ((strings.Split (lookup volume.Annotations "hosts")).take (k + 1)).map
          (removeCall volume)) ∧
      (unmarshal text = none → err = .rpc text) ∧
      (∀ errorInfo, unmarshal text = some errorInfo →
        err = .errorInfo errorInfo.Code errorInfo.Message) := by
  have hnot : ¬ succeededOrAbsent unmarshal (.error text) := by
    rintro ⟨e, he, hce⟩
    rcases hbad with hnone | ⟨e', he', hce'⟩
    · rw [hnone] at he
      exact Option.noConfusion he
    · rw [he] at he'
      exact hce' ((Option.some.inj he') ▸ hce)
  obtain ⟨err, he, h1, h2⟩ := destroyExports_abort unmarshal r volume
    (strings.Split (lookup volume.Annotations "hosts")) [] k host text
    (by simpa using hbefore) hk (by simpa using hr) hnot
  refine ⟨err, ?_, h1, h2⟩
  rw [Delete_of_loop_error unmarshal r volume err _ he]
  simp

/-- C9 on the scenario of the specification and on an opaque error:
export-destroy for the first of two hosts fails with the structured error of
code `-1` and message `boom`, and `Delete` returns that error after this one
call; export-destroy for the second host fails with a text that does not
decode, and `Delete` returns the original error after the two calls. -/
theorem Delete_aborts_on_export_error_witness :
    Delete sampleUnmarshal
        (sampleRemote (fun n =>
          if n = 0 then some "\x7b\"code\":-1,\"message\":\"boom\"\x7d" else none))
        (sampleVolume "hostA,hostB") =
      (some (.errorInfo (-1) "boom"), [removeCall (sampleVolume "hostA,hostB") "hostA"]) ∧
    Delete sampleUnmarshal
        (sampleRemote (fun n => if n = 1 then some "connection refused" else none))
        (sampleVolume "hostA,hostB") =
      (some (.rpc "connection refused"), [removeCall (sampleVolume "hostA,hostB") "hostA",
        removeCall (sampleVolume "hostA,hostB") "hostB"]) := by
  constructor
  · obtain ⟨err, he, _, h2⟩ := Delete_aborts_on_export_error sampleUnmarshal
      (sampleRemote (fun n =>
        if n = 0 then some "\x7b\"code\":-1,\"message\":\"boom\"\x7d" else none))
      (sampleVolume "hostA,hostB") 0 "hostA" "\x7b\"code\":-1,\"message\":\"boom\"\x7d"
      (fun j _ hj => absurd hj (Nat.not_lt_zero j)) (by decide) rfl
      (Or.inr ⟨{ Code := -1, Message := "boom" }, by decide, by decide⟩)
    rw [h2 { Code := -1, Message := "boom" } (by decide)] at he
    exact he
  · obtain ⟨err, he, h1, _⟩ := Delete_aborts_on_export_error sampleUnmarshal
      (sampleRemote (fun n => if n = 1 then some "connection refused" else none))
      (sampleVolume "hostA,hostB") 1 "hostB" "connection refused"
      (fun j host' hj hget => by
        obtain rfl : j = 0 := by omega
        obtain rfl : "hostA" = host' := by
          have hs : strings.Split (lookup (sampleVolume "hostA,hostB").Annotations "hosts") =
              ["hostA", "hostB"] := by decide
          rw [hs] at hget
          simpa using hget
        decide)
      (by decide) rfl (Or.inl (by decide))
    rw [h1 (by decide)] at he
    exact he

/-- C10: whenever file `Delete` issues `fs_destroy`, it returns success,
whatever the reply to `fs_destroy` and whatever its error text decodes to. -/
theorem Delete_succeeds_once_volume_destroy_issued (unmarshal : Unmarshal) (r : Remote)
    (volume : PersistentVolume)
    (h : ∃ args, Call.fs_destroy args ∈ (Delete unmarshal r volume).2) :
    (Delete unmarshal r volume).1 = none := by
  cases hloop : destroyExports unmarshal r volume
      (strings.Split (lookup volume.Annotations "hosts")) [] with
  | mk e t =>
    cases e with
    | none => rw [Delete_of_loop_end unmarshal r volume t hloop]
    | some err =>
      rw [Delete_of_loop_error unmarshal r volume err t hloop] at h
      obtain ⟨args, hmem⟩ := h
      obtain ⟨done, hd, _⟩ := destroyExports_calls unmarshal r volume
        (strings.Split (lookup volume.Annotations "hosts")) []
      rw [hloop] at hd
      simp only [List.nil_append] at hd
      change Call.fs_destroy args ∈ t at hmem
      rw [hd] at hmem
      obtain ⟨host, _, hc⟩ := List.mem_map.1 hmem
      exact Call.noConfusion hc

/-- C10 on a record with two hosts whose `fs_destroy` fails with a text that
does not decode: `Delete` returns success. -/
theorem Delete_succeeds_once_volume_destroy_issued_witness :
    Delete sampleUnmarshal
        (sampleRemote (fun n => if n = 2 then some "connection refused" else none))
        (sampleVolume "hostA,hostB") =
      (none, [removeCall (sampleVolume "hostA,hostB") "hostA",
        removeCall (sampleVolume "hostA,hostB") "hostB", .fs_destroy { Uuid := "u-1" }]) ∧
    (Delete sampleUnmarshal
        (sampleRemote (fun n => if n = 2 then some "connection refused" else none))
        (sampleVolume "hostA,hostB")).1 = none :=
  ⟨by decide, Delete_succeeds_once_volume_destroy_issued sampleUnmarshal _
    (sampleVolume "hostA,hostB") ⟨{ Uuid := "u-1" }, by decide⟩⟩

end nfs

/-! ## The block backend: abort at the first failing step -/

namespace iscsi

theorem runCalls_spec (r : Remote) (cs t : List Call) :
    (runCalls r cs t = (none, t ++ cs) ∧ AllOk r t cs) ∨
    (∃ p c q text, cs = p ++ c :: q ∧ runCalls r cs t = (some (.rpc text), t ++ p ++ [c]) ∧
      AllOk r t p ∧ r (t ++ p) c = .error text) := by
  induction cs generalizing t with
  | nil =>
    refine Or.inl ⟨by simp [runCalls], fun p c q h => ?_⟩
    exact absurd (congrArg List.length h) (by simp; omega)
  | cons c cs ih =>
    have hcons : ∀ result, r t c = .ok result → ∀ p, AllOk r (t ++ [c]) p → AllOk r t (c :: p) := by
      intro result hok p hp p' c' q' h
      cases p' with
      | nil =>
        simp only [List.nil_append, List.cons.injEq] at h
        exact ⟨result, by rw [List.append_nil, ← h.1, hok]⟩
      | cons a p' =>
        simp only [List.cons_append, List.cons.injEq] at h
        obtain ⟨result', h'⟩ := hp p' c' q' h.2
        exact ⟨result', by rw [← h.1, ← h']; simp⟩
    cases hr : r t c with
    | error text =>
      refine Or.inr ⟨[], c, cs, text, rfl, by simp [runCalls, hr], fun p c' q h => ?_, by simpa using hr⟩
      exact absurd (congrArg List.length h) (by simp; omega)
    | ok result =>
      have hstep : runCalls r (c :: cs) t = runCalls r cs (t ++ [c]) := by
        simp [runCalls, hr]
      rcases ih (t ++ [c]) with ⟨h1, h2⟩ | ⟨p, c', q, text, h1, h2, h3, h4⟩
      · exact Or.inl ⟨by rw [hstep, h1]; simp, hcons result hr cs h2⟩
      · refine Or.inr ⟨c :: p, c', q, text, by rw [h1]; rfl, by rw [hstep, h2]; simp,
          hcons result hr p h3, by rw [← h4]; simp⟩

/-- The export loop of `createVolume` issues the calls of `exportCalls` for
each initiator in turn and stops at the first that fails. -/
theorem createExports_eq_runCalls (r : Remote) (chapAuthSession : Bool)
    (chapCredentials : chapSessionCredentials) (vol : String) (lun : Int) (pool : String)
    (initiators : List String) (t : List Call) :
    createExports r chapAuthSession chapCredentials vol lun pool initiators t =
      runCalls r
        (initiators.flatMap (exportCalls chapAuthSession chapCredentials vol lun pool)) t := by
  induction initiators generalizing t with
  | nil => simp [createExports, runCalls]
  | cons initiator rest ih =>
    rw [List.flatMap_cons]
    unfold createExports
    simp only [exportCreate, setInitiatorAuth, call, exportCalls, List.cons_append]
    rw [runCalls]
    cases hr : r t (Call.export_create
      { Pool := pool, Vol := vol, InitiatorWwn := initiator, Lun := lun }) with
    | error text => simp [errOf]
    | ok result =>
      cases chapAuthSession with
      | false => simpa [errOf] using ih _
      | true =>
        simp only [errOf, if_true, List.singleton_append]
        rw [runCalls]
        cases hr' : r (t ++ [Call.export_create
            { Pool := pool, Vol := vol, InitiatorWwn := initiator, Lun := lun }])
          (Call.initiator_set_auth
            { InitiatorWwn := initiator, InUser := chapCredentials.InUser,
              InPassword := chapCredentials.InPassword, OutUser := chapCredentials.OutUser,
              OutPassword := chapCredentials.OutPassword }) with
        | error text => simp
        | ok result' => simpa using ih _

theorem AllOk_nil (r : Remote) (t : List Call) : AllOk r t [] := by
  intro p c q h
  exact absurd (congrArg List.length h) (by simp; omega)

theorem AllOk_cons (r : Remote) (t : List Call) (c : Call) (cs : List Call)
    (result : exportList) (hok : r t c = .ok result) (h : AllOk r (t ++ [c]) cs) :
    AllOk r t (c :: cs) := by
  intro p c' q hsplit
  cases p with
  | nil =>
    simp only [List.nil_append, List.cons.injEq] at hsplit
    exact ⟨result, by rw [List.append_nil, ← hsplit.1, hok]⟩
  | cons a p =>
    simp only [List.cons_append, List.cons.injEq] at hsplit
    obtain ⟨result', h'⟩ := h p c' q hsplit.2
    exact ⟨result', by rw [← hsplit.1, ← h']; simp⟩

/-- The two ways `createVolume` ends once the credentials are read: every
call of the success-case sequence issued and successful, or the sequence cut
off at its first failing step. -/
theorem createVolume_cases (env : Env) (r : Remote) (options : ProvisionOptions)
    (chapCredentials : chapSessionCredentials)
    (hc : readChapCredentials env options = .ok chapCredentials) :
    (∃ exportList1, r [] .export_list = .ok exportList1 ∧
      getFirstAvailableLun exportList1 = (allocatedLun r, none) ∧
      createVolume env r options [] =
        ({ vol := getVolumeName options, lun := allocatedLun r,
           pool := getVolumeGroup options, err := none },
          provisionCalls options chapCredentials (allocatedLun r)) ∧
      AllOk r [] (provisionCalls options chapCredentials (allocatedLun r))) ∨
    (∃ e p c q, provisionCalls options chapCredentials (allocatedLun r) = p ++ c :: q ∧
      createVolume env r options [] =
        ({ vol := "", lun := 0, pool := "", err := some e }, p ++ [c]) ∧
      AllOk r [] p ∧
      ((∃ text, r p c = .error text ∧ e = .rpc text) ∨
        (p = [] ∧ ∃ exportList1, r [] .export_list = .ok exportList1 ∧
          (getFirstAvailableLun exportList1).2 = some e))) := by
  unfold createVolume
  simp only [hc, exportListCall, call, List.nil_append]
  cases hr : r [] Call.export_list with
  | error text =>
    dsimp only
    exact Or.inr ⟨.rpc text, [], .export_list, _, rfl, rfl, AllOk_nil r [],
      Or.inl ⟨text, hr, rfl⟩⟩
  | ok exportList1 =>
    dsimp only
    have hlun : allocatedLun r = (getFirstAvailableLun exportList1).1 := by
      simp [allocatedLun, hr]
    cases hg : getFirstAvailableLun exportList1 with
    | mk lun e =>
      rw [hg] at hlun
      simp only at hlun
      cases e with
      | some err =>
        dsimp only
        exact Or.inr ⟨err, [], .export_list, _, rfl, rfl, AllOk_nil r [],
          Or.inr ⟨rfl, exportList1, rfl, by rw [hg]⟩⟩
      | none =>
        dsimp only
        rw [← hlun]
        simp only [volCreate, call]
        cases hvc : r [Call.export_list] (Call.vol_create
            { Pool := getVolumeGroup options, Name := getVolumeName options,
              Size := getSize options }) with
        | error text =>
          dsimp only [errOf]
          exact Or.inr ⟨.rpc text, [.export_list], _, _, rfl, rfl,
            AllOk_cons r [] _ [] exportList1 hr (AllOk_nil r _), Or.inl ⟨text, hvc, rfl⟩⟩
        | ok result =>
          dsimp only [errOf]
          simp only [createExports_eq_runCalls]
          rcases runCalls_spec r
            ((getInitiators options).flatMap
              (exportCalls (getBool (lookup options.Parameters "chapAuthSession"))
                chapCredentials (getVolumeName options) (allocatedLun r)
                (getVolumeGroup options)))
            ([Call.export_list] ++ [Call.vol_create
              { Pool := getVolumeGroup options, Name := getVolumeName options,
                Size := getSize options }]) with ⟨h1, h2⟩ | ⟨p, c, q, text, h1, h2, h3, h4⟩
          · refine Or.inl ⟨exportList1, rfl, by rw [hlun]; exact hg, ?_, ?_⟩
            · rw [h1]
              rfl
            · exact AllOk_cons r [] _ _ exportList1 hr (AllOk_cons r _ _ _ result hvc h2)
          · refine Or.inr ⟨.rpc text, .export_list :: .vol_create
              { Pool := getVolumeGroup options, Name := getVolumeName options,
                Size := getSize options } :: p, c, q, ?_, ?_, ?_, Or.inl ⟨text, h4, rfl⟩⟩
            · rw [provisionCalls, h1]
              rfl
            · rw [h2]
              rfl
            · exact AllOk_cons r [] _ _ exportList1 hr (AllOk_cons r _ _ _ result hvc h3)

/-- When validation passes and `createVolume` returns an error, `Provision`
returns that error and no volume record. -/
theorem Provision_of_createVolume_error (env : Env) (r : Remote) (options : ProvisionOptions)
    (vol : String) (lun : Int) (pool : String) (e : GoError) (t : List Call)
    (hv : AccessModesContainedInAll getAccessModes options.AccessModes = true)
    (h : createVolume env r options [] =
      ({ vol := vol, lun := lun, pool := pool, err := some e }, t)) :
    Provision env r options =
      ({ pv := none, state := .ProvisioningNoChange, err := some e }, t) := by
  simp [Provision, hv, h]

/-- When validation passes and `createVolume` succeeds, `Provision` returns a
volume record. -/
theorem Provision_of_createVolume_ok (env : Env) (r : Remote) (options : ProvisionOptions)
    (vol : String) (lun : Int) (pool : String) (t : List Call)
    (hv : AccessModesContainedInAll getAccessModes options.AccessModes = true)
    (h : createVolume env r options [] =
      ({ vol := vol, lun := lun, pool := pool, err := none }, t)) :
    ∃ pv, Provision env r options =
        ({ pv := some pv, state := .ProvisioningFinished, err := none }, t) ∧
      pv.ISCSI.Lun = lun ∧
      pv.Annotations = [("volume_name", vol), ("pool", pool),
        ("initiators", lookup options.Parameters "initiators")] := by
  simp [Provision, hv, h]

/-- No call of the success-case sequence is an `export_destroy` or a
`vol_destroy`. -/
theorem provisionCalls_no_destroy (options : ProvisionOptions)
    (chapCredentials : chapSessionCredentials) (lun : Int) (c : Call)
    (h : c ∈ provisionCalls options chapCredentials lun) :
    (∀ args, c ≠ .export_destroy args) ∧ (∀ args, c ≠ .vol_destroy args) := by
  simp only [provisionCalls, List.mem_cons, List.mem_flatMap, exportCalls] at h
  rcases h with h | h | ⟨initiator, _, h | h⟩
  · subst h; exact ⟨fun _ hc => Call.noConfusion hc, fun _ hc => Call.noConfusion hc⟩
  · subst h; exact ⟨fun _ hc => Call.noConfusion hc, fun _ hc => Call.noConfusion hc⟩
  · subst h; exact ⟨fun _ hc => Call.noConfusion hc, fun _ hc => Call.noConfusion hc⟩
  · split at h
    · rw [List.mem_singleton] at h
      subst h; exact ⟨fun _ hc => Call.noConfusion hc, fun _ hc => Call.noConfusion hc⟩
    · exact absurd h (List.not_mem_nil _)

/-- Every run of block `Provision` that returns an error `e` after validation
and the reading of the credentials returns no record, and its calls are the
success-case sequence cut off at a call `c`, the calls before `c` having
succeeded; `e` is the error of `c` or that of the LUN allocation. -/
theorem Provision_error_cut (env : Env) (r : Remote)
    (options : ProvisionOptions) (chapCredentials : chapSessionCredentials) (e : GoError)
    (hv : AccessModesContainedInAll getAccessModes options.AccessModes = true)
    (hc : readChapCredentials env options = .ok chapCredentials)
    (he : (Provision env r options).1.err = some e) :
    (Provision env r options).1.pv = none ∧
    (∀ c ∈ (Provision env r options).2,
      (∀ args, c ≠ .export_destroy args) ∧ (∀ args, c ≠ .vol_destroy args)) ∧
    ∃ p c q, provisionCalls options chapCredentials (allocatedLun r) = p ++ c :: q ∧
      (Provision env r options).2 = p ++ [c] ∧ AllOk r [] p ∧
      ((∃ text, r p c = .error text ∧ e = .rpc text) ∨
        (p = [] ∧ ∃ exportList1, r [] .export_list = .ok exportList1 ∧
          (getFirstAvailableLun exportList1).2 = some e)) := by
  rcases createVolume_cases env r options chapCredentials hc with
    ⟨_, _, _, hcv, _⟩ | ⟨e', p, c, q, hsplit, hcv, hall, hlast⟩
  · obtain ⟨pv, hp, _⟩ := Provision_of_createVolume_ok env r options _ _ _ _ hv hcv
    rw [hp] at he
    exact absurd he (by simp)
  · have hp := Provision_of_createVolume_error env r options _ _ _ e' _ hv hcv
    rw [hp] at he ⊢
    have hee : e' = e := by simpa using he
    subst hee
    refine ⟨rfl, ?_, p, c, q, hsplit, rfl, hall, hlast⟩
    intro c' hc'
    refine provisionCalls_no_destroy options chapCredentials (allocatedLun r) c' ?_
    rw [hsplit]
    rw [List.mem_append, List.mem_singleton] at hc'
    rw [List.mem_append, List.mem_cons]
    rcases hc' with h | h
    · exact Or.inl h
    · exact Or.inr (Or.inl h)

/-- Two cuts of one sequence at a failing call, each with all calls before it
successful, are the same cut. -/
theorem first_failure_unique (r : Remote) (t p q p' q' : List Call) (c c' : Call)
    (text text' : String) (hs : p ++ c :: q = p' ++ c' :: q')
    (hall : AllOk r t p) (hall' : AllOk r t p')
    (hr : r (t ++ p) c = .error text) (hr' : r (t ++ p') c' = .error text') :
    p = p' ∧ c = c' := by
  rcases List.append_eq_append_iff.1 hs with ⟨a, hp', ha⟩ | ⟨a, hp, ha⟩
  · cases a with
    | nil =>
      rw [List.append_nil] at hp'
      rw [List.nil_append, List.cons.injEq] at ha
      exact ⟨hp'.symm, ha.1⟩
    | cons x a =>
      rw [List.cons_append, List.cons.injEq] at ha
      obtain ⟨result, hok⟩ := hall' p c a (by rw [hp', ha.1])
      rw [hr] at hok
      exact Except.noConfusion hok
  · cases a with
    | nil =>
      rw [List.append_nil] at hp
      rw [List.nil_append, List.cons.injEq] at ha
      exact ⟨hp, ha.1.symm⟩
    | cons x a =>
      rw [List.cons_append, List.cons.injEq] at ha
      obtain ⟨result, hok⟩ := hall p' c' a (by rw [hp, ha.1])
      rw [hr'] at hok
      exact Except.noConfusion hok

/-- When the LUN allocation fails on the list `export_list` returned,
`createVolume` returns its error after that one call. -/
theorem createVolume_of_lun_error (env : Env) (r : Remote) (options : ProvisionOptions)
    (chapCredentials : chapSessionCredentials) (exportList1 : exportList) (e : GoError)
    (hc : readChapCredentials env options = .ok chapCredentials)
    (hlist : r [] .export_list = .ok exportList1)
    (hlun : (getFirstAvailableLun exportList1).2 = some e) :
    createVolume env r options [] =
      ({ vol := "", lun := 0, pool := "", err := some e }, [.export_list]) := by
  unfold createVolume
  simp only [hc, exportListCall, call, List.nil_append, hlist]
  cases hg : getFirstAvailableLun exportList1 with
  | mk lun e' =>
    rw [hg] at hlun
    simp only at hlun
    subst hlun
    rfl

/-- A sample daemon answers every call of a sequence it fails none of. -/
theorem sampleRemote_AllOk_before (exports : exportList) (failing : Nat → Option String)
    (t cs : List Call) (h : ∀ n, n < t.length + cs.length → failing n = none) :
    AllOk (sampleRemote exports failing) t cs := by
  intro p c q hs
  have hlen : (t ++ p).length < t.length + cs.length := by
    rw [hs]
    simp only [List.length_append, List.length_cons]
    omega
  have hf := h _ hlen
  simp only [sampleRemote, hf]
  cases c <;> exact ⟨_, rfl⟩

theorem distinctLuns_range (m : Nat) :
    distinctLuns ((List.range m).map (fun n : Nat => exportAt (n : Int))) = m := by
  have hl : lunsOf ((List.range m).map (fun n : Nat => exportAt (n : Int))) =
      (List.range m).map (fun n : Nat => (n : Int)) := by
    unfold lunsOf
    rw [List.map_map]
    rfl
  have hn : ((List.range m).map (fun n : Nat => (n : Int))).Nodup :=
    (List.nodup_range m).map Nat.cast_injective
  rw [distinctLuns, hl, hn.dedup, List.length_map, List.length_range]

/-- The allocator fails on the list of the 255 LUNs `0..254`. -/
theorem getFirstAvailableLun_exhausted :
    getFirstAvailableLun ((List.range 255).map (fun n : Nat => exportAt (n : Int))) =
      (-1, some (.new "255 luns allocated no more luns available")) := by
  rcases getFirstAvailableLun_spec
      ((List.range 255).map (fun n : Nat => exportAt (n : Int))) with ⟨_, h⟩ | ⟨hlt, _⟩
  · exact h
  · rw [distinctLuns_range] at hlt
    omega

/-- C7: when validation passes and the credentials are read, the first
failing step of block `Provision` makes it return that step's error and no
volume record, the calls issued being exactly the success-case sequence cut
off at the failing call.  The failing step is a remote call `c` of the
sequence (`export_list`, `vol_create`, an `export_create` or an
`initiator_set_auth`) that fails after all calls before it and the LUN
allocation succeeded, or it is the LUN allocation on the list `export_list`
returned.  None of the calls issued is an `export_destroy` or a
`vol_destroy`. -/
theorem Provision_aborts_at_first_failure (env : Env) (r : Remote)
    (options : ProvisionOptions) (chapCredentials : chapSessionCredentials)
    (p q : List Call) (c : Call) (e : GoError)
    (hv : AccessModesContainedInAll getAccessModes options.AccessModes = true)
    (hc : readChapCredentials env options = .ok chapCredentials)
    (hsplit : provisionCalls options chapCredentials (allocatedLun r) = p ++ c :: q)
    (hbefore : AllOk r [] p)
    (hfail :
      (∃ text, r p c = .error text ∧ e = .rpc text ∧
        ∀ exportList1, r [] .export_list = .ok exportList1 →
          (getFirstAvailableLun exportList1).2 = none) ∨
      (p = [] ∧ ∃ exportList1, r [] .export_list = .ok exportList1 ∧
        (getFirstAvailableLun exportList1).2 = some e)) :
    Provision env r options =
      ({ pv := none, state := .ProvisioningNoChange, err := some e }, p ++ [c]) ∧
    ∀ c' ∈ (Provision env r options).2,
      (∀ args, c' ≠ .export_destroy args) ∧ (∀ args, c' ≠ .vol_destroy args) := by
  have hprov : Provision env r options =
      ({ pv := none, state := .ProvisioningNoChange, err := some e }, p ++ [c]) := by
    rcases hfail with ⟨text, hr, he, hlun⟩ | ⟨hp, exportList1, hlist, hlun⟩
    · rcases createVolume_cases env r options chapCredentials hc with
        ⟨_, _, _, _, hall⟩ | ⟨e', p', c', q', hsplit', hcv, hall', hlast⟩
      · obtain ⟨result, hok⟩ := hall p c q hsplit
        rw [List.nil_append, hr] at hok
        exact Except.noConfusion hok
      · rcases hlast with ⟨text', hr', he'⟩ | ⟨_, l, hl, hfail'⟩
        · obtain ⟨hpp, hcc⟩ := first_failure_unique r [] p q p' q' c c' text text'
            (hsplit.symm.trans hsplit') hbefore hall' (by simpa using hr) (by simpa using hr')
          subst hpp hcc
          rw [hr] at hr'
          have ht : text = text' := by simpa using hr'
          rw [he, ht, ← he']
          exact Provision_of_createVolume_error env r options _ _ _ e' _ hv hcv
        · rw [hlun l hl] at hfail'
          exact Option.noConfusion hfail'
    · subst hp
      have hcl : c = .export_list := by
        have h := hsplit
        simp only [provisionCalls, List.nil_append, List.cons.injEq] at h
        exact h.1.symm
      subst hcl
      exact Provision_of_createVolume_error env r options _ _ _ e _ hv
        (createVolume_of_lun_error env r options chapCredentials exportList1 e hc hlist hlun)
  refine ⟨hprov, ?_⟩
  rw [hprov]
  intro c' hc'
  refine provisionCalls_no_destroy options chapCredentials (allocatedLun r) c' ?_
  rw [hsplit]
  change c' ∈ p ++ [c] at hc'
  rw [List.mem_append, List.mem_singleton] at hc'
  rw [List.mem_append, List.mem_cons]
  rcases hc' with h | h
  · exact Or.inl h
  · exact Or.inr (Or.inl h)

/-- C7 on the scenario of the specification and on two more failing steps.
Initiators `I1,I2`, no CHAP, `export_create` failing for `I2`: `Provision`
returns the error and no record after `export_list`, `vol_create`,
`export_create(I1)` and `export_create(I2)`.  With CHAP and
`initiator_set_auth` failing for `I1`: nothing is issued after that call.
With a daemon that lists the 255 LUNs `0..254`: the allocation error is
returned after `export_list` alone. -/
theorem Provision_aborts_at_first_failure_witness :
    Provision sampleEnv
        (sampleRemote [exportAt 0] (fun n => if n = 3 then some "boom" else none))
        (sampleOptions "I1,I2" "false") =
      ({ pv := none, state := .ProvisioningNoChange, err := some (.rpc "boom") },
        [.export_list, .vol_create { Pool := "vg-targetd", Name := "pvc-1", Size := 1024 },
          .export_create
            { Pool := "vg-targetd", Vol := "pvc-1", InitiatorWwn := "I1", Lun := 1 },
          .export_create
            { Pool := "vg-targetd", Vol := "pvc-1", InitiatorWwn := "I2", Lun := 1 }]) ∧
    Provision sampleEnv
        (sampleRemote [exportAt 0] (fun n => if n = 3 then some "boom" else none))
        (sampleOptions "I1,I2" "true") =
      ({ pv := none, state := .ProvisioningNoChange, err := some (.rpc "boom") },
        [.export_list, .vol_create { Pool := "vg-targetd", Name := "pvc-1", Size := 1024 },
          .export_create
            { Pool := "vg-targetd", Vol := "pvc-1", InitiatorWwn := "I1", Lun := 1 },
          .initiator_set_auth
            { InitiatorWwn := "I1", InUser := "in", InPassword := "inpw", OutUser := "out",
              OutPassword := "outpw" }]) ∧
    Provision sampleEnv
        (sampleRemote ((List.range 255).map (fun n : Nat => exportAt (n : Int)))
          (fun _ => none))
        (sampleOptions "I1,I2" "false") =
      ({ pv := none, state := .ProvisioningNoChange,
         err := some (.new "255 luns allocated no more luns available") },
        [.export_list]) :=
  ⟨(Provision_aborts_at_first_failure sampleEnv
      (sampleRemote [exportAt 0] (fun n => if n = 3 then some "boom" else none))
      (sampleOptions "I1,I2" "false")
      { InUser := "", InPassword := "", OutUser := "", OutPassword := "" }
      [.export_list, .vol_create { Pool := "vg-targetd", Name := "pvc-1", Size := 1024 },
        .export_create
          { Pool := "vg-targetd", Vol := "pvc-1", InitiatorWwn := "I1", Lun := 1 }]
      []
      (.export_create
        { Pool := "vg-targetd", Vol := "pvc-1", InitiatorWwn := "I2", Lun := 1 })
      (.rpc "boom") (by decide) rfl (by decide)
      (sampleRemote_AllOk_before _ _ _ _ (by decide))
      (Or.inl ⟨"boom", rfl, rfl, fun l hl => by
        obtain rfl : [exportAt 0] = l := Except.ok.inj hl
        decide⟩)).1,
    (Provision_aborts_at_first_failure sampleEnv
      (sampleRemote [exportAt 0] (fun n => if n = 3 then some "boom" else none))
      (sampleOptions "I1,I2" "true")
      { InUser := "in", InPassword := "inpw", OutUser := "out", OutPassword := "outpw" }
      [.export_list, .vol_create { Pool := "vg-targetd", Name := "pvc-1", Size := 1024 },
        .export_create
          { Pool := "vg-targetd", Vol := "pvc-1", InitiatorWwn := "I1", Lun := 1 }]
      [.export_create
          { Pool := "vg-targetd", Vol := "pvc-1", InitiatorWwn := "I2", Lun := 1 },
        .initiator_set_auth
          { InitiatorWwn := "I2", InUser := "in", InPassword := "inpw", OutUser := "out",
            OutPassword := "outpw" }]
      (.initiator_set_auth
        { InitiatorWwn := "I1", InUser := "in", InPassword := "inpw", OutUser := "out",
          OutPassword := "outpw" })
      (.rpc "boom") (by decide) rfl (by decide)
      (sampleRemote_AllOk_before _ _ _ _ (by decide))
      (Or.inl ⟨"boom", rfl, rfl, fun l hl => by
        obtain rfl : [exportAt 0] = l := Except.ok.inj hl
        decide⟩)).1,
    (Provision_aborts_at_first_failure sampleEnv
      (sampleRemote ((List.range 255).map (fun n : Nat => exportAt (n : Int)))
        (fun _ => none))
      (sampleOptions "I1,I2" "false")
      { InUser := "", InPassword := "", OutUser := "", OutPassword := "" }
      [] _ .export_list (.new "255 luns allocated no more luns available")
      (by decide) rfl rfl (AllOk_nil _ _)
      (Or.inr ⟨rfl, _, rfl, by rw [getFirstAvailableLun_exhausted]⟩)).1⟩

end iscsi

/-! ## The block backend: delete, validation, the success-case sequence -/

namespace iscsi

theorem runCalls_append (r : Remote) (a b t : List Call) :
    runCalls r (a ++ b) t =
      match runCalls r a t with
      | (some err, t') => (some err, t')
      | (none, t') => runCalls r b t' := by
  induction a generalizing t with
  | nil => simp [runCalls]
  | cons c a ih =>
    simp only [List.cons_append, runCalls]
    cases r t c with
    | error text => rfl
    | ok result => exact ih _

/-- The export loop of block `Delete` issues one `export_destroy` per
initiator, in order, and stops at the first that fails. -/
theorem destroyExports_eq_runCalls (r : Remote) (volume : PersistentVolume)
    (initiators : List String) (t : List Call) :
    destroyExports r volume initiators t =
      runCalls r (initiators.map (destroyCall volume)) t := by
  induction initiators generalizing t with
  | nil => simp [destroyExports, runCalls]
  | cons initiator rest ih =>
    unfold destroyExports
    simp only [exportDestroy, call, List.map_cons]
    rw [runCalls]
    change (match (errOf (r t (destroyCall volume initiator)),
        t ++ [destroyCall volume initiator]) with
      | (some err, t) => (some err, t)
      | (none, t) => destroyExports r volume rest t) = _
    cases r t (destroyCall volume initiator) with
    | error text => rfl
    | ok result => exact ih _

/-- Block `Delete` issues the calls of `deleteCalls` in order and stops at the
first that fails, returning its error. -/
theorem Delete_eq_runCalls (r : Remote) (volume : PersistentVolume) :
    Delete r volume = runCalls r (deleteCalls volume) [] := by
  unfold Delete deleteCalls
  rw [runCalls_append, destroyExports_eq_runCalls]
  cases runCalls r
      ((strings.Split (lookup volume.Annotations "initiators")).map (destroyCall volume))
      [] with
  | mk e t =>
    cases e with
    | some err => rfl
    | none =>
      simp only [volDestroy, call, runCalls]
      cases r t (Call.vol_destroy
        { Pool := lookup volume.Annotations "pool",
          Name := lookup volume.Annotations "volume_name" }) with
      | error text => rfl
      | ok result => rfl

/-- C11: block `Delete` issues `export_destroy(pool, volume_name, initiator)`
for each comma-separated entry of the initiators annotation in the stored
order, then `vol_destroy(pool, volume_name)`, and returns success when all of
them succeed; otherwise its calls are this sequence cut off at the first
failing call and it returns the error of that call, whatever its text.  On a
record with initiators `I1,I2`, a structured not-found error of the second
`export_destroy`, and one of `vol_destroy`, are returned. -/
theorem Delete_destroys_exports_in_order :
    (∀ (r : Remote) (volume : PersistentVolume),
      (Delete r volume = (none, deleteCalls volume) ∧ AllOk r [] (deleteCalls volume)) ∨
      ∃ p c q text, deleteCalls volume = p ++ c :: q ∧
        Delete r volume = (some (.rpc text), p ++ [c]) ∧ AllOk r [] p ∧
        r p c = .error text) ∧
    Delete
        (sampleRemote [] (fun n =>
          if n = 1 then some "\x7b\"code\":-151,\"message\":\"no export\"\x7d" else none))
        (sampleVolume "I1,I2" "false" 1) =
      (some (.rpc "\x7b\"code\":-151,\"message\":\"no export\"\x7d"),
        [.export_destroy { Pool := "vg-targetd", Vol := "pvc-1", InitiatorWwn := "I1" },
          .export_destroy { Pool := "vg-targetd", Vol := "pvc-1", InitiatorWwn := "I2" }]) ∧
    Delete
        (sampleRemote [] (fun n =>
          if n = 2 then some "\x7b\"code\":-103,\"message\":\"no volume\"\x7d" else none))
        (sampleVolume "I1,I2" "false" 1) =
      (some (.rpc "\x7b\"code\":-103,\"message\":\"no volume\"\x7d"),
        [.export_destroy { Pool := "vg-targetd", Vol := "pvc-1", InitiatorWwn := "I1" },
          .export_destroy { Pool := "vg-targetd", Vol := "pvc-1", InitiatorWwn := "I2" },
          .vol_destroy { Pool := "vg-targetd", Name := "pvc-1" }]) := by
  refine ⟨fun r volume => ?_, by decide, by decide⟩
  rw [Delete_eq_runCalls]
  have h := runCalls_spec r (deleteCalls volume) []
  simpa only [List.nil_append] using h

/-- When reading the CHAP credentials fails, `createVolume` returns that
error before its first remote call. -/
theorem createVolume_of_chap_error (env : Env) (r : Remote) (options : ProvisionOptions)
    (e : GoError) (h : readChapCredentials env options = .error e) :
    createVolume env r options [] = ({ vol := "", lun := 0, pool := "", err := some e }, []) := by
  simp [createVolume, h]

/-- C18: when validation passes and session CHAP is requested, a failure to
load or to decode the credential file makes block `Provision` return that
error and no record without any remote call. -/
theorem Provision_chap_failure_before_any_call (env : Env) (r : Remote)
    (options : ProvisionOptions) (e : GoError)
    (hv : AccessModesContainedInAll getAccessModes options.AccessModes = true)
    (hchap : getBool (lookup options.Parameters "chapAuthSession") = true)
    (hfail : env.LoadFile = .error e ∨
      ∃ prop, env.LoadFile = .ok prop ∧ env.Decode prop = .error e) :
    Provision env r options =
      ({ pv := none, state := .ProvisioningNoChange, err := some e }, []) := by
  refine Provision_of_createVolume_error env r options _ _ _ e [] hv
    (createVolume_of_chap_error env r options e ?_)
  unfold readChapCredentials
  rw [if_pos hchap]
  rcases hfail with h | ⟨prop, h, hd⟩
  · rw [h]
  · rw [h]
    simp only [hd]

/-- C18 on a request for `I1,I2` with session CHAP whose credential file
cannot be loaded, and on one whose file lacks a key: no remote call. -/
theorem Provision_chap_failure_before_any_call_witness :
    Provision { sampleEnv with LoadFile := .error (.properties "open: no such file") }
        (sampleRemote [] (fun _ => none)) (sampleOptions "I1,I2" "true") =
      ({ pv := none, state := .ProvisioningNoChange,
         err := some (.properties "open: no such file") }, []) ∧
    Provision { sampleEnv with Decode := fun _ => .error (.properties "missing key") }
        (sampleRemote [] (fun _ => none)) (sampleOptions "I1,I2" "true") =
      ({ pv := none, state := .ProvisioningNoChange,
         err := some (.properties "missing key") }, []) :=
  ⟨Provision_chap_failure_before_any_call _ _ (sampleOptions "I1,I2" "true") _ (by decide)
      (by decide) (Or.inl rfl),
    Provision_chap_failure_before_any_call _ _ (sampleOptions "I1,I2" "true") _ (by decide)
      (by decide) (Or.inr ⟨_, rfl, rfl⟩)⟩

/-- What a volume record returned by block `Provision` tells: validation
passed, the credentials were read, every call of the success-case sequence was
issued and succeeded, and the record holds the allocated LUN and the three
annotations. -/
theorem Provision_success_inv (env : Env) (r : Remote) (options : ProvisionOptions)
    (pv : PersistentVolume) (t : List Call)
    (hp : (Provision env r options).1.pv = some pv)
    (ht : (Provision env r options).2 = t) :
    ∃ chapCredentials exportList1,
      AccessModesContainedInAll getAccessModes options.AccessModes = true ∧
      readChapCredentials env options = .ok chapCredentials ∧
      r [] .export_list = .ok exportList1 ∧
      getFirstAvailableLun exportList1 = (allocatedLun r, none) ∧
      t = provisionCalls options chapCredentials (allocatedLun r) ∧
      AllOk r [] (provisionCalls options chapCredentials (allocatedLun r)) ∧
      Provision env r options =
        ({ pv := some pv, state := .ProvisioningFinished, err := none }, t) ∧
      pv.ISCSI.Lun = allocatedLun r ∧
      pv.Annotations = [("volume_name", getVolumeName options),
        ("pool", getVolumeGroup options),
        ("initiators", lookup options.Parameters "initiators")] := by
  cases hv : AccessModesContainedInAll getAccessModes options.AccessModes with
  | false => simp [Provision, hv] at hp
  | true =>
    cases hc : readChapCredentials env options with
    | error e =>
      rw [Provision_of_createVolume_error env r options _ _ _ e [] hv
        (createVolume_of_chap_error env r options e hc)] at hp
      simp at hp
    | ok chapCredentials =>
      rcases createVolume_cases env r options chapCredentials hc with
        ⟨exportList1, hr, hg, hcv, hall⟩ | ⟨e, p, c, q, _, hcv, _, _⟩
      · obtain ⟨pv', hprov, hlun, hann⟩ :=
          Provision_of_createVolume_ok env r options _ _ _ _ hv hcv
        rw [hprov] at hp ht
        have hpv : pv' = pv := by simpa using hp
        subst hpv
        exact ⟨chapCredentials, exportList1, rfl, rfl, hr, hg, ht.symm, hall,
          by rw [hprov, ← ht], hlun, hann⟩
      · rw [Provision_of_createVolume_error env r options _ _ _ e _ hv hcv] at hp
        simp at hp

/-- The `export_create` calls of the loop of `createVolume` carry the pool,
the volume and each initiator in turn. -/
theorem createdExports_exportCalls (chapAuthSession : Bool)
    (chapCredentials : chapSessionCredentials) (vol : String) (lun : Int) (pool : String)
    (initiators : List String) :
    createdExports
        (initiators.flatMap (exportCalls chapAuthSession chapCredentials vol lun pool)) =
      initiators.map (fun initiator => (pool, vol, initiator)) := by
  induction initiators with
  | nil => simp [createdExports]
  | cons initiator rest ih =>
    rw [List.flatMap_cons, List.map_cons, ← ih]
    cases chapAuthSession <;> rfl

theorem createdExports_provisionCalls (options : ProvisionOptions)
    (chapCredentials : chapSessionCredentials) (lun : Int) :
    createdExports (provisionCalls options chapCredentials lun) =
      (getInitiators options).map
        (fun initiator => (getVolumeGroup options, getVolumeName options, initiator)) := by
  simp only [provisionCalls, createdExports, createdExports_exportCalls]

theorem destroyedExports_deleteCalls (volume : PersistentVolume) :
    destroyedExports (deleteCalls volume) =
      (strings.Split (lookup volume.Annotations "initiators")).map
        (fun initiator => (lookup volume.Annotations "pool",
          lookup volume.Annotations "volume_name", initiator)) := by
  unfold deleteCalls
  induction strings.Split (lookup volume.Annotations "initiators") with
  | nil => simp [destroyedExports]
  | cons initiator rest ih => simp [destroyedExports, destroyCall, ih]

end iscsi

namespace strings

theorem splitAux_length (cs cur : List Char) :
    (splitAux cs cur).length = cs.count ',' + 1 := by
  induction cs generalizing cur with
  | nil => simp [splitAux]
  | cons c cs ih =>
    unfold splitAux
    by_cases hc : c = ','
    · simp [hc, ih]
    · have hc' : ¬ (c == ',') = true := by simpa using hc
      simp [hc, ih, List.count_cons, hc']

/-- The call `strings.Split(s, ",")` gives one piece more than `s` has commas. -/
theorem Split_length (s : String) : (Split s).length = s.data.count ',' + 1 :=
  splitAux_length s.data []

theorem Split_ne_nil (s : String) : Split s ≠ [] := by
  intro h
  have := Split_length s
  rw [h] at this
  simp at this

end strings

/-! ## The block backend: what a successful provision issues and records -/

namespace iscsi

theorem runCalls_of_AllOk (r : Remote) (cs t : List Call) (h : AllOk r t cs) :
    runCalls r cs t = (none, t ++ cs) := by
  rcases runCalls_spec r cs t with ⟨h1, _⟩ | ⟨p, c, q, text, hsplit, _, _, herr⟩
  · exact h1
  · obtain ⟨result, hok⟩ := h p c q hsplit
    rw [hok] at herr
    exact Except.noConfusion herr

/-- A daemon that fails no call answers every call of any sequence. -/
theorem sampleRemote_AllOk (exports : exportList) (t cs : List Call) :
    AllOk (sampleRemote exports (fun _ => none)) t cs := by
  intro p c q _
  cases c <;> exact ⟨_, rfl⟩

/-- Reads of the three annotations block `Provision` writes. -/
theorem lookup_annotations (vol pool initiators : String) :
    lookup [("volume_name", vol), ("pool", pool), ("initiators", initiators)]
        "volume_name" = vol ∧
      lookup [("volume_name", vol), ("pool", pool), ("initiators", initiators)] "pool" = pool ∧
      lookup [("volume_name", vol), ("pool", pool), ("initiators", initiators)]
        "initiators" = initiators :=
  ⟨rfl, rfl, rfl⟩

/-- C13: when validation passes, the credentials are read, `export_list`
returns a list on which `getFirstAvailableLun` gives `lun`, and every call of
the success-case sequence succeeds, block `Provision` returns a record and has
issued exactly `export_list`, `vol_create(pool, name, size)` and, for each
initiator in list order, `export_create(pool, name, initiator, lun)` followed
by `initiator_set_auth` exactly when session CHAP is requested; every
`export_create` carries `lun`, which is the LUN of the record. -/
theorem Provision_success_sequence (env : Env) (r : Remote) (options : ProvisionOptions)
    (chapCredentials : chapSessionCredentials) (exportList1 : exportList) (lun : Int)
    (hv : AccessModesContainedInAll getAccessModes options.AccessModes = true)
    (hc : readChapCredentials env options = .ok chapCredentials)
    (hlist : r [] .export_list = .ok exportList1)
    (hlun : getFirstAvailableLun exportList1 = (lun, none))
    (hall : AllOk r [] (provisionCalls options chapCredentials lun)) :
    ∃ pv, Provision env r options =
        ({ pv := some pv, state := .ProvisioningFinished, err := none },
          .export_list ::
            .vol_create { Pool := getVolumeGroup options, Name := options.PVName,
                          Size := options.Storage } ::
            (strings.Split (lookup options.Parameters "initiators")).flatMap
              (fun initiator =>
                .export_create { Pool := getVolumeGroup options, Vol := options.PVName,
                                 InitiatorWwn := initiator, Lun := lun } ::
                (if getBool (lookup options.Parameters "chapAuthSession") then
                  [.initiator_set_auth
                    { InitiatorWwn := initiator, InUser := chapCredentials.InUser,
                      InPassword := chapCredentials.InPassword,
                      OutUser := chapCredentials.OutUser,
                      OutPassword := chapCredentials.OutPassword }]
                else []))) ∧
      pv.ISCSI.Lun = lun ∧
      ∀ args, Call.export_create args ∈ (Provision env r options).2 → args.Lun = lun := by
  have hal : allocatedLun r = lun := by simp [allocatedLun, hlist, hlun]
  rcases createVolume_cases env r options chapCredentials hc with
    ⟨_, _, _, hcv, _⟩ | ⟨e, p, c, q, hsplit, _, _, hlast⟩
  · obtain ⟨pv, hprov, hpl, _⟩ := Provision_of_createVolume_ok env r options _ _ _ _ hv hcv
    rw [hal] at hprov hpl
    refine ⟨pv, hprov, hpl, ?_⟩
    intro args hmem
    rw [hprov] at hmem
    simp only [provisionCalls, List.mem_cons, List.mem_flatMap, exportCalls, reduceCtorEq,
      false_or] at hmem
    obtain ⟨initiator, _, h | h⟩ := hmem
    · rw [Call.export_create.injEq] at h
      rw [h]
    · split at h
      · rw [List.mem_singleton] at h
        exact Call.noConfusion h
      · exact absurd h (List.not_mem_nil _)
  · exfalso
    rw [hal] at hsplit
    rcases hlast with ⟨text, herr, _⟩ | ⟨_, l, hl, hfail⟩
    · obtain ⟨result, hok⟩ := hall p c q hsplit
      rw [List.nil_append, herr] at hok
      exact Except.noConfusion hok
    · rw [hlist] at hl
      have : exportList1 = l := by simpa using hl
      rw [← this, hlun] at hfail
      simp at hfail

/-- C13 on a request for `I1,I2` with session CHAP against a daemon whose one
export holds LUN 0: six calls at LUN 1, which the record holds. -/
theorem Provision_success_sequence_witness :
    ∃ pv, Provision sampleEnv (sampleRemote [exportAt 0] (fun _ => none))
        (sampleOptions "I1,I2" "true") =
        ({ pv := some pv, state := .ProvisioningFinished, err := none },
          [.export_list, .vol_create { Pool := "vg-targetd", Name := "pvc-1", Size := 1024 },
            .export_create
              { Pool := "vg-targetd", Vol := "pvc-1", InitiatorWwn := "I1", Lun := 1 },
            .initiator_set_auth
              { InitiatorWwn := "I1", InUser := "in", InPassword := "inpw", OutUser := "out",
                OutPassword := "outpw" },
            .export_create
              { Pool := "vg-targetd", Vol := "pvc-1", InitiatorWwn := "I2", Lun := 1 },
            .initiator_set_auth
              { InitiatorWwn := "I2", InUser := "in", InPassword := "inpw", OutUser := "out",
                OutPassword := "outpw" }]) ∧
      pv.ISCSI.Lun = 1 ∧
      ∀ args, Call.export_create args ∈
        (Provision sampleEnv (sampleRemote [exportAt 0] (fun _ => none))
          (sampleOptions "I1,I2" "true")).2 → args.Lun = 1 :=
  Provision_success_sequence sampleEnv (sampleRemote [exportAt 0] (fun _ => none))
    (sampleOptions "I1,I2" "true")
    { InUser := "in", InPassword := "inpw", OutUser := "out", OutPassword := "outpw" }
    [exportAt 0] 1 (by decide) rfl rfl (by decide) (sampleRemote_AllOk _ _ _)

/-- C14: on the record a successful block `Provision` returns, block `Delete`
(its calls all succeeding) issues an `export_destroy(pool, name, initiator)`
for each initiator of the request in list order, then one
`vol_destroy(pool, name)`, with the pool and name `Provision` passed to
`vol_create`; the triples of its `export_destroy` calls are those of the
`export_create` calls of `Provision`, in the same order; and it issues no
`export_list`. -/
theorem Delete_undoes_Provision (env : Env) (r r' : Remote) (options : ProvisionOptions)
    (pv : PersistentVolume) (t : List Call)
    (hp : Provision env r options =
      ({ pv := some pv, state := .ProvisioningFinished, err := none }, t))
    (hall : AllOk r' [] (deleteCalls pv)) :
    Delete r' pv =
      (none,
        (strings.Split (lookup options.Parameters "initiators")).map
            (fun initiator => Call.export_destroy
              { Pool := getVolumeGroup options, Vol := options.PVName,
                InitiatorWwn := initiator }) ++
          [.vol_destroy { Pool := getVolumeGroup options, Name := options.PVName }]) ∧
    destroyedExports (Delete r' pv).2 = createdExports t ∧
    t[1]? = some (.vol_create { Pool := getVolumeGroup options, Name := options.PVName,
                                Size := options.Storage }) ∧
    Call.export_list ∉ (Delete r' pv).2 := by
  obtain ⟨chapCredentials, _, _, _, _, _, ht, _, _, _, hann⟩ :=
    Provision_success_inv env r options pv t (by rw [hp]) (by rw [hp])
  obtain ⟨hvol, hpool, hinit⟩ := lookup_annotations (getVolumeName options)
    (getVolumeGroup options) (lookup options.Parameters "initiators")
  rw [← hann] at hvol hpool hinit
  have hdel : Delete r' pv = (none, deleteCalls pv) := by
    rw [Delete_eq_runCalls, runCalls_of_AllOk r' _ [] hall, List.nil_append]
  have hcalls : deleteCalls pv =
      (strings.Split (lookup options.Parameters "initiators")).map
          (fun initiator => Call.export_destroy
            { Pool := getVolumeGroup options, Vol := options.PVName,
              InitiatorWwn := initiator }) ++
        [.vol_destroy { Pool := getVolumeGroup options, Name := options.PVName }] := by
    unfold deleteCalls destroyCall
    rw [hvol, hpool, hinit]
    rfl
  refine ⟨by rw [hdel, hcalls], ?_, ?_, ?_⟩
  · rw [hdel]
    change destroyedExports (deleteCalls pv) = createdExports t
    rw [destroyedExports_deleteCalls, ht, createdExports_provisionCalls, hvol, hpool, hinit]
    rfl
  · rw [ht]
    simp [provisionCalls, getVolumeName, getSize]
  · rw [hdel]
    change Call.export_list ∉ deleteCalls pv
    rw [hcalls]
    simp

/-- C14 on the record of a request for `I1,I2` with session CHAP: `Delete`
issues `export_destroy` for `I1` and `I2` and `vol_destroy`, matching the two
`export_create` calls and the `vol_create` of `Provision`. -/
theorem Delete_undoes_Provision_witness :
    Delete (sampleRemote [] (fun _ => none)) (sampleVolume "I1,I2" "true" 1) =
      (none,
        [.export_destroy { Pool := "vg-targetd", Vol := "pvc-1", InitiatorWwn := "I1" },
          .export_destroy { Pool := "vg-targetd", Vol := "pvc-1", InitiatorWwn := "I2" },
          .vol_destroy { Pool := "vg-targetd", Name := "pvc-1" }]) ∧
    destroyedExports
        (Delete (sampleRemote [] (fun _ => none)) (sampleVolume "I1,I2" "true" 1)).2 =
      createdExports
        (Provision sampleEnv (sampleRemote [exportAt 0] (fun _ => none))
          (sampleOptions "I1,I2" "true")).2 :=
  have h := Delete_undoes_Provision sampleEnv (sampleRemote [exportAt 0] (fun _ => none))
    (sampleRemote [] (fun _ => none)) (sampleOptions "I1,I2" "true")
    (sampleVolume "I1,I2" "true" 1)
    (Provision sampleEnv (sampleRemote [exportAt 0] (fun _ => none))
      (sampleOptions "I1,I2" "true")).2
    (by decide) (sampleRemote_AllOk _ _ _)
  ⟨h.1, h.2.1⟩

/-- C15: the record a successful block `Provision` returns has the
annotations `volume_name` = the requested name, `pool` = the `volumeGroup`
parameter, or `vg-targetd` when that parameter is absent or empty, and
`initiators` = the `initiators` parameter unchanged; the pool annotation is
the pool of the `vol_create` call and of every `export_create` call. -/
theorem Provision_annotations (env : Env) (r : Remote) (options : ProvisionOptions)
    (pv : PersistentVolume) (t : List Call)
    (hp : Provision env r options =
      ({ pv := some pv, state := .ProvisioningFinished, err := none }, t)) :
    lookup pv.Annotations "volume_name" = options.PVName ∧
    lookup pv.Annotations "pool" =
      (if lookup options.Parameters "volumeGroup" = "" then "vg-targetd"
       else lookup options.Parameters "volumeGroup") ∧
    lookup pv.Annotations "initiators" = lookup options.Parameters "initiators" ∧
    (∀ args, Call.vol_create args ∈ t → args.Pool = lookup pv.Annotations "pool") ∧
    (∀ args, Call.export_create args ∈ t → args.Pool = lookup pv.Annotations "pool") ∧
    (∃ args, Call.vol_create args ∈ t) ∧ (∃ args, Call.export_create args ∈ t) := by
  obtain ⟨chapCredentials, _, _, _, _, _, ht, _, _, _, hann⟩ :=
    Provision_success_inv env r options pv t (by rw [hp]) (by rw [hp])
  obtain ⟨hvol, hpool, hinit⟩ := lookup_annotations (getVolumeName options)
    (getVolumeGroup options) (lookup options.Parameters "initiators")
  rw [← hann] at hvol hpool hinit
  have hne := strings.Split_ne_nil (lookup options.Parameters "initiators")
  have hvc : ∃ args, Call.vol_create args ∈ t := by
    rw [ht]
    exact ⟨_, List.mem_cons_of_mem _ (List.mem_cons_self _ _)⟩
  refine ⟨hvol, hpool, hinit, ?_, ?_, hvc, ?_⟩
  · intro args hmem
    rw [ht] at hmem
    simp only [provisionCalls, List.mem_cons, List.mem_flatMap, exportCalls, reduceCtorEq,
      false_or] at hmem
    rcases hmem with h | ⟨initiator, _, h⟩
    · rw [Call.vol_create.injEq] at h
      rw [h, hpool]
    · split at h
      · rw [List.mem_singleton] at h
        exact Call.noConfusion h
      · exact absurd h (List.not_mem_nil _)
  · intro args hmem
    rw [ht] at hmem
    simp only [provisionCalls, List.mem_cons, List.mem_flatMap, exportCalls, reduceCtorEq,
      false_or] at hmem
    obtain ⟨initiator, _, h | h⟩ := hmem
    · rw [Call.export_create.injEq] at h
      rw [h, hpool]
    · split at h
      · rw [List.mem_singleton] at h
        exact Call.noConfusion h
      · exact absurd h (List.not_mem_nil _)
  · cases hs : getInitiators options with
    | nil => exact absurd hs hne
    | cons initiator rest =>
      refine ⟨{ Pool := getVolumeGroup options, Vol := getVolumeName options,
                InitiatorWwn := initiator, Lun := allocatedLun r }, ?_⟩
      rw [ht]
      simp [provisionCalls, hs, exportCalls]

/-- C15 on a request without `volumeGroup`: the pool annotation is the
default `vg-targetd`, the other two are the name and the initiators. -/
theorem Provision_annotations_witness :
    lookup (sampleVolume "I1,I2" "true" 1).Annotations "volume_name" = "pvc-1" ∧
    lookup (sampleVolume "I1,I2" "true" 1).Annotations "pool" = "vg-targetd" ∧
    lookup (sampleVolume "I1,I2" "true" 1).Annotations "initiators" = "I1,I2" :=
  have h := Provision_annotations sampleEnv (sampleRemote [exportAt 0] (fun _ => none))
    (sampleOptions "I1,I2" "true") (sampleVolume "I1,I2" "true" 1)
    (Provision sampleEnv (sampleRemote [exportAt 0] (fun _ => none))
      (sampleOptions "I1,I2" "true")).2
    (by decide)
  ⟨h.1, h.2.1, h.2.2.1⟩

/-- C19: a successful block `Provision` issues one `export_create` more than
the initiators parameter has commas, so never zero; when that parameter is
absent or empty it issues exactly one, with the empty string as initiator,
and block `Delete` on the record issues exactly one `export_destroy`, with
the empty initiator, whatever the daemon replies. -/
theorem Provision_export_count (env : Env) (r : Remote) (options : ProvisionOptions)
    (pv : PersistentVolume) (t : List Call)
    (hp : Provision env r options =
      ({ pv := some pv, state := .ProvisioningFinished, err := none }, t)) :
    (createdExports t).length = (lookup options.Parameters "initiators").data.count ',' + 1 ∧
    (createdExports t).length ≠ 0 ∧
    (lookup options.Parameters "initiators" = "" →
      createdExports t = [(getVolumeGroup options, options.PVName, "")] ∧
      ∀ r' : Remote,
        destroyedExports (Delete r' pv).2 = [(getVolumeGroup options, options.PVName, "")]) := by
  obtain ⟨chapCredentials, _, _, _, _, _, ht, _, _, _, hann⟩ :=
    Provision_success_inv env r options pv t (by rw [hp]) (by rw [hp])
  obtain ⟨hvol, hpool, hinit⟩ := lookup_annotations (getVolumeName options)
    (getVolumeGroup options) (lookup options.Parameters "initiators")
  rw [← hann] at hvol hpool hinit
  have hlen : (createdExports t).length =
      (lookup options.Parameters "initiators").data.count ',' + 1 := by
    rw [ht, createdExports_provisionCalls, List.length_map, getInitiators,
      strings.Split_length]
  refine ⟨hlen, by rw [hlen]; omega, fun hempty => ⟨?_, fun r' => ?_⟩⟩
  · rw [ht, createdExports_provisionCalls, getInitiators, hempty]
    rfl
  · have hcalls : deleteCalls pv =
        [.export_destroy { Pool := getVolumeGroup options, Vol := options.PVName,
                           InitiatorWwn := "" },
          .vol_destroy { Pool := getVolumeGroup options, Name := options.PVName }] := by
      unfold deleteCalls destroyCall
      rw [hvol, hpool, hinit, hempty]
      rfl
    rw [Delete_eq_runCalls, hcalls]
    simp only [runCalls]
    cases r' [] (Call.export_destroy
      { Pool := getVolumeGroup options, Vol := options.PVName, InitiatorWwn := "" }) with
    | error text => rfl
    | ok result =>
      simp only [List.nil_append]
      cases r' [Call.export_destroy
          { Pool := getVolumeGroup options, Vol := options.PVName, InitiatorWwn := "" }]
        (Call.vol_destroy { Pool := getVolumeGroup options, Name := options.PVName }) with
      | error text => rfl
      | ok result' => rfl

/-- C19 on a request with an empty initiators parameter: one `export_create`
and one `export_destroy`, both with the empty initiator. -/
theorem Provision_export_count_witness :
    Provision sampleEnv (sampleRemote [] (fun _ => none)) (sampleOptions "" "false") =
      ({ pv := some (sampleVolume "" "false" 0), state := .ProvisioningFinished,
         err := none },
        [.export_list, .vol_create { Pool := "vg-targetd", Name := "pvc-1", Size := 1024 },
          .export_create
            { Pool := "vg-targetd", Vol := "pvc-1", InitiatorWwn := "", Lun := 0 }]) ∧
    (createdExports
        [.export_list, .vol_create { Pool := "vg-targetd", Name := "pvc-1", Size := 1024 },
          .export_create
            { Pool := "vg-targetd", Vol := "pvc-1", InitiatorWwn := "", Lun := 0 }]).length =
      (lookup (sampleOptions "" "false").Parameters "initiators").data.count ',' + 1 ∧
    destroyedExports
        (Delete (sampleRemote [] (fun _ => none)) (sampleVolume "" "false" 0)).2 =
      [("vg-targetd", "pvc-1", "")] :=
  have h := Provision_export_count sampleEnv (sampleRemote [] (fun _ => none))
    (sampleOptions "" "false") (sampleVolume "" "false" 0) _ (by decide)
  ⟨by decide, h.1, (h.2.2 rfl).2 _⟩

theorem blockValidation_iff (modes : List PersistentVolumeAccessMode) :
    AccessModesContainedInAll getAccessModes modes = true ↔ supportedModes modes := by
  simp [AccessModesContainedInAll, getAccessModes, supportedModes, List.all_eq_true]

end iscsi

namespace nfs

theorem fileValidation_iff (modes : List PersistentVolumeAccessMode) :
    AccessModesContainedInAll getAccessModes modes = true ↔ supportedModes modes := by
  simp [AccessModesContainedInAll, getAccessModes, supportedModes, List.all_eq_true]

end nfs

/-! ## Validation of the access modes, both backends -/

/-- C12: for both backends, a request with an access mode outside the
supported set (block: read-write-once, read-only-many; file: read-write-many,
read-only-many, read-write-once) makes `Provision` return the validation
error and no record without any remote call; a request whose modes are all
supported passes validation: the calls and the error of `Provision` are those
of `createVolume`. -/
theorem Provision_validates_access_modes :
    (∀ (env : iscsi.Env) (r : iscsi.Remote) (options : ProvisionOptions),
      (¬ iscsi.supportedModes options.AccessModes →
        iscsi.Provision env r options =
          ({ pv := none, state := .ProvisioningNoChange,
             err := some (.new ("invalid AccessModes " ++
               iscsi.fmtModes options.AccessModes ++ ": only AccessModes " ++
               iscsi.fmtModes iscsi.getAccessModes ++ " are supported")) }, [])) ∧
      (iscsi.supportedModes options.AccessModes →
        (iscsi.Provision env r options).2 = (iscsi.createVolume env r options []).2 ∧
        (iscsi.Provision env r options).1.err = (iscsi.createVolume env r options []).1.err)) ∧
    (∀ (r : nfs.Remote) (options : ProvisionOptions),
      (¬ nfs.supportedModes options.AccessModes →
        nfs.Provision r options =
          ({ pv := none, state := .ProvisioningNoChange,
             err := some (.new ("invalid AccessModes " ++
               nfs.fmtModes options.AccessModes ++ ": only AccessModes " ++
               nfs.fmtModes nfs.getAccessModes ++ " are supported")) }, [])) ∧
      (nfs.supportedModes options.AccessModes →
        (nfs.Provision r options).2 = (nfs.createVolume r options []).2 ∧
        (nfs.Provision r options).1.err = (nfs.createVolume r options []).1.err)) := by
  refine ⟨fun env r options => ⟨fun hbad => ?_, fun hgood => ?_⟩,
    fun r options => ⟨fun hbad => ?_, fun hgood => ?_⟩⟩
  · have hv : AccessModesContainedInAll iscsi.getAccessModes options.AccessModes = false := by
      rw [← Bool.not_eq_true]
      exact fun h => hbad ((iscsi.blockValidation_iff _).1 h)
    simp [iscsi.Provision, hv]
  · have hv := (iscsi.blockValidation_iff _).2 hgood
    cases hcv : iscsi.createVolume env r options [] with
    | mk res t =>
      obtain ⟨vol, lun, pool, err⟩ := res
      cases err <;> simp [iscsi.Provision, hv, hcv]
  · have hv : AccessModesContainedInAll nfs.getAccessModes options.AccessModes = false := by
      rw [← Bool.not_eq_true]
      exact fun h => hbad ((nfs.fileValidation_iff _).1 h)
    simp [nfs.Provision, hv]
  · have hv := (nfs.fileValidation_iff _).2 hgood
    cases hcv : nfs.createVolume r options [] with
    | mk res t =>
      obtain ⟨vol, pool, path, uuid, err⟩ := res
      cases err <;> simp [nfs.Provision, hv, hcv]

/-- C12 on a block request for read-write-many and a file request for
read-write-once-pod: both are rejected with no remote call. -/
theorem Provision_validates_access_modes_witness :
    iscsi.Provision iscsi.sampleEnv (iscsi.sampleRemote [] (fun _ => none))
        { iscsi.sampleOptions "I1" "false" with AccessModes := [ReadWriteOnce, ReadWriteMany] } =
      ({ pv := none, state := .ProvisioningNoChange,
         err := some (.new ("invalid AccessModes [ReadWriteOnce ReadWriteMany]: " ++
           "only AccessModes [ReadWriteOnce ReadOnlyMany] are supported")) }, []) ∧
    nfs.Provision (nfs.sampleRemote (fun _ => none))
        { nfs.sampleOptions "h1" with AccessModes := ["ReadWriteOncePod"] } =
      ({ pv := none, state := .ProvisioningNoChange,
         err := some (.new ("invalid AccessModes [ReadWriteOncePod]: " ++
           "only AccessModes [ReadWriteMany ReadOnlyMany ReadWriteOnce] are supported")) },
        []) :=
  ⟨(Provision_validates_access_modes.1 iscsi.sampleEnv (iscsi.sampleRemote [] (fun _ => none))
      { iscsi.sampleOptions "I1" "false" with
        AccessModes := [ReadWriteOnce, ReadWriteMany] }).1
      (fun h => absurd ((iscsi.blockValidation_iff _).2 h) (by decide)),
    (Provision_validates_access_modes.2 (nfs.sampleRemote (fun _ => none))
      { nfs.sampleOptions "h1" with AccessModes := ["ReadWriteOncePod"] }).1
      (fun h => absurd ((nfs.fileValidation_iff _).2 h) (by decide))⟩

/-! ## The file backend: the created volume resolved from `fs_list` -/

namespace nfs

/-- The three ways `createVolume` ends: `fs_create` fails; the created volume
is not among the listed ones; or it is, and an `nfs_export_add` is issued for
every host at its full path. -/
theorem createVolume_outcome (r : Remote) (options : ProvisionOptions) :
    (∃ text, r [] (createCall options) = .error text ∧
      createVolume r options [] =
        ({ vol := "", pool := "", path := "", uuid := "", err := some (.rpc text) },
          [createCall options])) ∨
    (∃ result, r [] (createCall options) = .ok result ∧
      (((listedVolumes r options).find? (fun volume =>
            volume.Pool = getVolumeGroup options ∧ volume.Name = getVolumeName options) = none ∧
          createVolume r options [] =
            ({ vol := "", pool := "", path := "", uuid := "",
               err := some (.new "failed to find the created volume") },
              [createCall options, .fs_list])) ∨
        ∃ created, (listedVolumes r options).find? (fun volume =>
            volume.Pool = getVolumeGroup options ∧ volume.Name = getVolumeName options) =
            some created ∧
          createVolume r options [] =
            ({ vol := getVolumeName options, pool := getVolumeGroup options,
               path := created.FullPath, uuid := created.Uuid,
               err := (createExports r created.FullPath (getNfsOptions options)
                 (getHosts options) none [createCall options, .fs_list]).1 },
              [createCall options, .fs_list] ++
                (getHosts options).map (addCall created.FullPath (getNfsOptions options))))) := by
  cases hc : r [] (createCall options) with
  | error text =>
    refine Or.inl ⟨text, rfl, ?_⟩
    unfold createCall at hc
    simp [createVolume, volCreate, call, hc, errOf, createCall]
  | ok result =>
    refine Or.inr ⟨result, rfl, ?_⟩
    have hc' := hc
    unfold createCall at hc'
    cases hl : r [createCall options] .fs_list with
    | error text =>
      have hlv : listedVolumes r options = [] := by simp [listedVolumes, hl]
      refine Or.inl ⟨by rw [hlv]; rfl, ?_⟩
      unfold createCall at hl
      simp [createVolume, volCreate, volFind, volList, call, hc', hl, errOf, createCall]
    | ok volumes =>
      have hlv : listedVolumes r options = volumes := by simp [listedVolumes, hl]
      rw [hlv]
      have hl' := hl
      unfold createCall at hl'
      cases hf : volumes.find? (fun volume =>
          volume.Pool = getVolumeGroup options ∧ volume.Name = getVolumeName options) with
      | none =>
        refine Or.inl ⟨rfl, ?_⟩
        have hf' := hf
        simp only [Bool.decide_and] at hf'
        simp [createVolume, volCreate, volFind, volList, call, hc', hl', hf', errOf, createCall]
      | some created =>
        refine Or.inr ⟨created, rfl, ?_⟩
        have hf' := hf
        simp only [Bool.decide_and] at hf'
        have htrace := createExports_trace r created.FullPath (getNfsOptions options)
          (getHosts options) none [createCall options, .fs_list]
        rw [← htrace]
        simp [createVolume, volCreate, volFind, volList, call, hc', hl', hf', errOf,
          createCall]

/-- Once validation passed, the calls and the error of file `Provision` are
those of `createVolume`, and a record it returns holds the path and the
unique id `createVolume` resolved and the hosts parameter. -/
theorem Provision_of_createVolume (r : Remote) (options : ProvisionOptions)
    (vol pool path uuid : String) (err : Option GoError) (t : List Call)
    (hv : AccessModesContainedInAll getAccessModes options.AccessModes = true)
    (hcv : createVolume r options [] =
      ({ vol := vol, pool := pool, path := path, uuid := uuid, err := err }, t)) :
    (Provision r options).2 = t ∧ (Provision r options).1.err = err ∧
    ∀ pv, (Provision r options).1.pv = some pv →
      pv.NFS.Path = path ∧
      pv.Annotations = [("uuid", uuid), ("hosts", lookup options.Parameters "hosts")] := by
  cases err with
  | some e => simp [Provision, hv, hcv]
  | none =>
    refine ⟨by simp [Provision, hv, hcv], by simp [Provision, hv, hcv], fun pv hpv => ?_⟩
    simp only [Provision, hv, hcv, Bool.not_true, Bool.false_eq_true, if_false,
      Option.some.injEq] at hpv
    rw [← hpv]
    exact ⟨rfl, rfl⟩

/-- Reads of the two annotations file `Provision` writes. -/
theorem lookup_file_annotations (uuid hosts : String) :
    lookup [("uuid", uuid), ("hosts", hosts)] "uuid" = uuid ∧
      lookup [("uuid", uuid), ("hosts", hosts)] "hosts" = hosts :=
  ⟨rfl, rfl⟩

/-- C16: when validation passes and `fs_create` succeeds, file `Provision`
uses the full path and the unique id of the first listed volume whose pool is
the requested pool (or the default) and whose name is the requested name: each
host gets an `nfs_export_add` at that path, and a record returned holds that
path and that id; when no listed volume matches, `Provision` returns the error
`failed to find the created volume` and no record, having issued `fs_create`
and `fs_list` only. -/
theorem Provision_resolves_created_volume (r : Remote) (options : ProvisionOptions)
    (result : volumeList)
    (hv : AccessModesContainedInAll getAccessModes options.AccessModes = true)
    (hcreate : r [] (createCall options) = .ok result) :
    (∀ created, (listedVolumes r options).find? (fun volume =>
          volume.Pool = getVolumeGroup options ∧ volume.Name = options.PVName) =
          some created →
      (Provision r options).2 =
        [createCall options, .fs_list] ++
          (strings.Split (lookup options.Parameters "hosts")).map (fun host =>
            Call.nfs_export_add
              { Host := host, Path := created.FullPath,
                Options := strings.Split (lookup options.Parameters "options") }) ∧
      ∀ pv, (Provision r options).1.pv = some pv →
        pv.NFS.Path = created.FullPath ∧ lookup pv.Annotations "uuid" = created.Uuid) ∧
    ((listedVolumes r options).find? (fun volume =>
          volume.Pool = getVolumeGroup options ∧ volume.Name = options.PVName) = none →
      Provision r options =
        ({ pv := none, state := .ProvisioningNoChange,
           err := some (.new "failed to find the created volume") },
          [createCall options, .fs_list])) := by
  rcases createVolume_outcome r options with
    ⟨text, hc, _⟩ | ⟨_, _, ⟨hnone, hcv⟩ | ⟨created, hsome, hcv⟩⟩
  · rw [hcreate] at hc
    exact Except.noConfusion hc
  · refine ⟨fun created hfind => ?_, fun _ => ?_⟩
    · rw [show options.PVName = getVolumeName options from rfl, hnone] at hfind
      exact Option.noConfusion hfind
    · simp [Provision, hv, hcv]
  · refine ⟨fun created' hfind => ?_, fun hfind => ?_⟩
    · rw [show options.PVName = getVolumeName options from rfl, hsome] at hfind
      have hcr : created = created' := by simpa using hfind
      subst hcr
      obtain ⟨ht, _, hpv⟩ := Provision_of_createVolume r options _ _ _ _ _ _ hv hcv
      refine ⟨ht, fun pv h => ?_⟩
      obtain ⟨hpath, hann⟩ := hpv pv h
      exact ⟨hpath, by rw [hann]; rfl⟩
    · rw [show options.PVName = getVolumeName options from rfl, hsome] at hfind
      exact Option.noConfusion hfind

/-- C16 on a daemon that lists `pvc-1`: a request for `pvc-1` exports its
path `/mnt/pvc-1` to both hosts, and a request for `pvc-2` fails after
`fs_create` and `fs_list`. -/
theorem Provision_resolves_created_volume_witness :
    (Provision (sampleRemote (fun _ => none)) (sampleOptions "h1,h2")).2 =
      [.fs_create { Pool := "vg-targetd", Name := "pvc-1", Size := 0 }, .fs_list,
        .nfs_export_add { Host := "h1", Path := "/mnt/pvc-1", Options := [""] },
        .nfs_export_add { Host := "h2", Path := "/mnt/pvc-1", Options := [""] }] ∧
    Provision (sampleRemote (fun _ => none))
        { sampleOptions "h1,h2" with PVName := "pvc-2" } =
      ({ pv := none, state := .ProvisioningNoChange,
         err := some (.new "failed to find the created volume") },
        [.fs_create { Pool := "vg-targetd", Name := "pvc-2", Size := 0 }, .fs_list]) :=
  ⟨((Provision_resolves_created_volume (sampleRemote (fun _ => none))
      (sampleOptions "h1,h2") [] (by decide) rfl).1
      sampleCreated (by decide)).1,
    (Provision_resolves_created_volume (sampleRemote (fun _ => none))
      { sampleOptions "h1,h2" with PVName := "pvc-2" } [] (by decide) rfl).2 (by decide)⟩

/-- C17: a record file `Provision` returns has as `uuid` annotation the
unique id of the created volume resolved from `fs_list`, as `hosts`
annotation the hosts parameter unchanged and as NFS path the resolved full
path.  Consequently file `Delete` on that record calls `fs_destroy` with
exactly that unique id: when every export-destroy call succeeds or fails as
already absent, `Delete` issues its export-destroy calls and then
`fs_destroy` with that id; whenever `Delete` returns success it has issued
`fs_destroy` with that id; and no `fs_destroy` it issues carries another
id. -/
theorem Provision_record_carries_resolved_id (r : Remote) (options : ProvisionOptions)
    (pv : PersistentVolume) (hp : (Provision r options).1.pv = some pv) :
    ∃ created, (listedVolumes r options).find? (fun volume =>
          volume.Pool = getVolumeGroup options ∧ volume.Name = options.PVName) =
          some created ∧
      lookup pv.Annotations "uuid" = created.Uuid ∧
      lookup pv.Annotations "hosts" = lookup options.Parameters "hosts" ∧
      pv.NFS.Path = created.FullPath ∧
      (∀ (unmarshal : Unmarshal) (r' : Remote),
        (∀ k host, (strings.Split (lookup options.Parameters "hosts"))[k]? = some host →
          succeededOrAbsent unmarshal
            (r' (((strings.Split (lookup options.Parameters "hosts")).take k).map
              (removeCall pv)) (removeCall pv host))) →
        Delete unmarshal r' pv =
          (none, (strings.Split (lookup options.Parameters "hosts")).map (removeCall pv) ++
            [.fs_destroy { Uuid := created.Uuid }])) ∧
      (∀ (unmarshal : Unmarshal) (r' : Remote), (Delete unmarshal r' pv).1 = none →
        Call.fs_destroy { Uuid := created.Uuid } ∈ (Delete unmarshal r' pv).2) ∧
      ∀ (unmarshal : Unmarshal) (r' : Remote) (args : volDestroyArgs),
        Call.fs_destroy args ∈ (Delete unmarshal r' pv).2 → args.Uuid = created.Uuid := by
  cases hv : AccessModesContainedInAll getAccessModes options.AccessModes with
  | false => simp [Provision, hv] at hp
  | true =>
    rcases createVolume_outcome r options with
      ⟨text, _, hcv⟩ | ⟨_, _, ⟨_, hcv⟩ | ⟨created, hsome, hcv⟩⟩
    · simp [Provision, hv, hcv] at hp
    · simp [Provision, hv, hcv] at hp
    · obtain ⟨_, _, hpv⟩ := Provision_of_createVolume r options _ _ _ _ _ _ hv hcv
      obtain ⟨hpath, hann⟩ := hpv pv hp
      obtain ⟨huuid, hhosts⟩ := lookup_file_annotations created.Uuid
        (lookup options.Parameters "hosts")
      rw [← hann] at huuid hhosts
      refine ⟨created, hsome, huuid, hhosts, hpath, fun unmarshal r' htol => ?_,
        fun unmarshal r' hnone => ?_, fun unmarshal r' args hmem => ?_⟩
      · rw [← hhosts] at htol ⊢
        have hloop := destroyExports_tolerated unmarshal r' pv
          (strings.Split (lookup pv.Annotations "hosts")) [] (by simpa using htol)
        rw [Delete_of_loop_end unmarshal r' pv _ hloop, huuid]
        simp
      · cases hloop : destroyExports unmarshal r' pv
            (strings.Split (lookup pv.Annotations "hosts")) [] with
        | mk e t =>
          cases e with
          | some err =>
            rw [Delete_of_loop_error unmarshal r' pv err t hloop] at hnone
            exact Option.noConfusion hnone
          | none =>
            rw [Delete_of_loop_end unmarshal r' pv t hloop, huuid]
            exact List.mem_append_right _ (List.mem_singleton.2 rfl)
      · obtain ⟨done, _, hd | hd⟩ := Delete_calls unmarshal r' pv
        · rw [hd] at hmem
          obtain ⟨host, _, hc⟩ := List.mem_map.1 hmem
          exact Call.noConfusion hc
        · rw [hd, List.mem_append, List.mem_singleton] at hmem
          rcases hmem with hmem | hmem
          · obtain ⟨host, _, hc⟩ := List.mem_map.1 hmem
            exact Call.noConfusion hc
          · rw [Call.fs_destroy.injEq] at hmem
            rw [hmem, huuid]

/-- C17 on the record of a request for `pvc-1` with hosts `h1,h2`: the
annotations are `u-1` and `h1,h2`, the path is `/mnt/pvc-1`; `Delete` against
a daemon that fails no call issues the two export-destroy calls and then
`fs_destroy` with `u-1`; and `Delete` against a daemon whose `fs_destroy`
fails still has issued `fs_destroy` with `u-1`. -/
theorem Provision_record_carries_resolved_id_witness :
    (Provision (sampleRemote (fun _ => none)) (sampleOptions "h1,h2")).1.pv =
      some (sampleVolume "h1,h2") ∧
    lookup (sampleVolume "h1,h2").Annotations "uuid" = "u-1" ∧
    lookup (sampleVolume "h1,h2").Annotations "hosts" = "h1,h2" ∧
    (sampleVolume "h1,h2").NFS.Path = "/mnt/pvc-1" ∧
    Delete sampleUnmarshal (sampleRemote (fun _ => none)) (sampleVolume "h1,h2") =
      (none, [removeCall (sampleVolume "h1,h2") "h1", removeCall (sampleVolume "h1,h2") "h2",
        .fs_destroy { Uuid := "u-1" }]) ∧
    Call.fs_destroy { Uuid := "u-1" } ∈
      (Delete sampleUnmarshal
        (sampleRemote (fun n => if n = 2 then some "connection refused" else none))
        (sampleVolume "h1,h2")).2 ∧
    ∀ args, Call.fs_destroy args ∈
      (Delete sampleUnmarshal (sampleRemote (fun _ => none)) (sampleVolume "h1,h2")).2 →
      args.Uuid = "u-1" := by
  obtain ⟨created, hfind, huuid, hhosts, hpath, hall, hsucc, hdel⟩ :=
    Provision_record_carries_resolved_id (sampleRemote (fun _ => none))
      (sampleOptions "h1,h2") (sampleVolume "h1,h2") (by decide)
  have hc : created = sampleCreated := by
    have h' : (listedVolumes (sampleRemote (fun _ => none)) (sampleOptions "h1,h2")).find?
        (fun volume => volume.Pool = getVolumeGroup (sampleOptions "h1,h2") ∧
          volume.Name = (sampleOptions "h1,h2").PVName) = some sampleCreated := by decide
    rw [hfind] at h'
    exact Option.some.inj h'
  subst hc
  exact ⟨by decide, huuid, hhosts, hpath,
    hall sampleUnmarshal (sampleRemote (fun _ => none)) (fun _ _ _ => trivial),
    hsucc sampleUnmarshal _ (by decide), hdel sampleUnmarshal _⟩

end nfs
